import Mathlib

set_option autoImplicit false

/-!
Shallow embedding of the orchestration core of the autogas repository:
the active-issue registry (state-manager), the orchestrator event handlers,
the GitHub poller with its watermark state, and the health-check loop.
Timestamps are modelled as natural numbers of milliseconds; the external
GitHub/Docker collaborators are modelled as oracles passed in as arguments.
-/

namespace Autogas

universe u v

/-- Association list mirroring the JS `Map` used by the sources: `mapSet`
replaces the first binding of the key in place, or appends a fresh binding. -/
def mapSet {κ : Type u} {α : Type v} [DecidableEq κ] : List (κ × α) → κ → α → List (κ × α)
  | [], k, v => [(k, v)]
  | (k', v') :: rest, k, v => if k' = k then (k, v) :: rest else (k', v') :: mapSet rest k v

/-- `Map.get`: first binding of the key, if any. -/
def mapGet {κ : Type u} {α : Type v} [DecidableEq κ] : List (κ × α) → κ → Option α
  | [], _ => none
  | (k', v') :: rest, k => if k' = k then some v' else mapGet rest k

/-- `Map.delete`: drop the first binding of the key. -/
def mapDelete {κ : Type u} {α : Type v} [DecidableEq κ] : List (κ × α) → κ → List (κ × α)
  | [], _ => []
  | (k', v') :: rest, k => if k' = k then rest else (k', v') :: mapDelete rest k

/-- JS `Set.add` on a duplicate-free list of strings. -/
def setAdd (s : List String) (k : String) : List String :=
  if k ∈ s then s else s ++ [k]

/-- JS `Set.delete`. -/
def setDelete (s : List String) (k : String) : List String :=
  s.erase k

inductive ActiveIssueStatus where
  | starting
  | cloning
  | analyzing
  | developing
  | testing
  | pr_created
  | awaiting_review
  | iterating
  | done
  | error
  | aborted
deriving DecidableEq, Repr

/-- A unit of work (`ActiveIssue` in the orchestrator types). Dates are
milliseconds since the epoch; `error` is the last error message. -/
structure ActiveIssue where
  repoOwner : String
  repoName : String
  issueNumber : Nat
  issueTitle : String
  issueBody : String
  containerId : String
  containerName : String
  status : ActiveIssueStatus
  branchName : String
  startedAt : Nat
  lastHeartbeat : Option Nat
  prNumber : Option Nat
  error : Option String
deriving DecidableEq, Repr

/-- `StateManager.getIssueKey`: the composite string key `owner/repo#issueNumber`. -/
def getIssueKey (owner repo : String) (issueNumber : Nat) : String :=
  owner ++ "/" ++ repo ++ "#" ++ toString issueNumber

/-- The state manager: a JS `Map` from composite string keys to active issues,
plus the configured concurrency ceiling. -/
structure StateManager where
  activeIssues : List (String × ActiveIssue)
  maxConcurrent : Nat
deriving DecidableEq, Repr

/-- `StateManager.canStartNew`: true iff the registry size is below the ceiling. -/
def StateManager.canStartNew (s : StateManager) : Bool :=
  s.activeIssues.length < s.maxConcurrent

/-- `StateManager.getQueuePosition`: `size - maxConcurrent + 1` (JS number arithmetic,
so the value may be non-positive; modelled over the integers). -/
def StateManager.getQueuePosition (s : StateManager) : Int :=
  (s.activeIssues.length : Int) - (s.maxConcurrent : Int) + 1

/-- `StateManager.registerIssue`: an unconditional `Map.set` under the issue's key. -/
def StateManager.registerIssue (s : StateManager) (issue : ActiveIssue) : StateManager :=
  { s with activeIssues :=
      mapSet s.activeIssues (getIssueKey issue.repoOwner issue.repoName issue.issueNumber) issue }

/-- `StateManager.getIssue`. -/
def StateManager.getIssue (s : StateManager) (owner repo : String) (issueNumber : Nat) :
    Option ActiveIssue :=
  mapGet s.activeIssues (getIssueKey owner repo issueNumber)

/-- `StateManager.getAllActive`: the registry values in insertion order. -/
def StateManager.getAllActive (s : StateManager) : List ActiveIssue :=
  s.activeIssues.map Prod.snd

/-- `StateManager.getIssueByContainerId`: first registry value with the container id. -/
def StateManager.getIssueByContainerId (s : StateManager) (containerId : String) :
    Option ActiveIssue :=
  s.getAllActive.find? (fun i => i.containerId = containerId)

/-- `StateManager.isIssueActive`. -/
def StateManager.isIssueActive (s : StateManager) (owner repo : String) (issueNumber : Nat) :
    Bool :=
  (s.getIssue owner repo issueNumber).isSome

/-- `StateManager.removeIssue`. -/
def StateManager.removeIssue (s : StateManager) (owner repo : String) (issueNumber : Nat) :
    StateManager :=
  { s with activeIssues := mapDelete s.activeIssues (getIssueKey owner repo issueNumber) }

/-- `StateManager.updateIssueStatus`: a no-op for a missing key; otherwise sets the
status, refreshes `lastHeartbeat` to the current time, and (only for a truthy, i.e.
non-empty, argument) records the error message. -/
def StateManager.updateIssueStatus (s : StateManager) (owner repo : String)
    (issueNumber : Nat) (status : ActiveIssueStatus) (err : Option String) (now : Nat) :
    StateManager :=
  match s.getIssue owner repo issueNumber with
  | none => s
  | some i =>
    let i' : ActiveIssue :=
      { i with
        status := status
        lastHeartbeat := some now
        error := match err with
          | some e => if e = "" then i.error else some e
          | none => i.error }
    { s with activeIssues := mapSet s.activeIssues (getIssueKey owner repo issueNumber) i' }

/-- Replace the first binding whose value carries the container id (the in-place
object mutation performed through `getIssueByContainerId`). -/
def updateFirstByContainer (m : List (String × ActiveIssue)) (containerId : String)
    (f : ActiveIssue → ActiveIssue) : List (String × ActiveIssue) :=
  match m with
  | [] => []
  | (k, i) :: rest =>
    if i.containerId = containerId then (k, f i) :: rest
    else (k, i) :: updateFirstByContainer rest containerId f

/-- `StateManager.updateIssueByContainerId`: merge the pushed updates into the unit
matching the container id and refresh its heartbeat; a no-op when no unit matches.
(In the repository this method has no caller.) -/
def StateManager.updateIssueByContainerId (s : StateManager) (containerId : String)
    (status : Option ActiveIssueStatus) (err : Option String) (now : Nat) : StateManager :=
  match s.getIssueByContainerId containerId with
  | none => s
  | some _ =>
    { s with activeIssues :=
        updateFirstByContainer s.activeIssues containerId (fun i =>
          { i with
            status := status.getD i.status
            error := match err with | some e => some e | none => i.error
            lastHeartbeat := some now }) }

/-- Staleness test from `StateManager.getStaleIssues`: without any heartbeat the unit
is stale once older than the 10-minute grace period; with one, once the heartbeat is
older than the timeout. -/
def ActiveIssue.isStale (i : ActiveIssue) (now heartbeatTimeoutMs : Nat) : Bool :=
  match i.lastHeartbeat with
  | none => 10 * 60 * 1000 < now - i.startedAt
  | some hb => heartbeatTimeoutMs < now - hb

/-- `StateManager.getStaleIssues`. -/
def StateManager.getStaleIssues (s : StateManager) (now heartbeatTimeoutMs : Nat) :
    List ActiveIssue :=
  s.getAllActive.filter (fun i => i.isStale now heartbeatTimeoutMs)

/-- Where a trigger event came from: the periodic poller or a webhook push.
The tag is part of the normalized event only — the handler never reads it, and
the two paths do NOT deliver the same argument shape: the per-path deliveries
are modeled by `pushIssueArg` and `pollIssueArg` below, and only the webhook
path actually produces the payload object this normalized event idealizes (see
`handleIssueTriggeredUntyped` for the handler over its real untyped
signature). -/
inductive TriggerSource where
  | poll
  | push
deriving DecidableEq, Repr

/-- A normalized issue-trigger event: what `Orchestrator.handleIssueTriggered`'s
body reads when its untyped `issue` argument is a well-formed payload object,
which is what the webhook path delivers (the poll path does not — see
`pollIssueArg`). -/
structure TriggerEvent where
  owner : String
  repo : String
  number : Nat
  title : String
  body : String
  source : TriggerSource
deriving DecidableEq, Repr

/-- Calls the orchestrator issues to the external collaborators (GitHub, Docker). -/
inductive Action where
  | postComment (owner repo : String) (issueNumber : Nat) (text : String)
  | addReaction (owner repo : String) (commentId : Nat) (reaction : String)
  | startContainer (owner repo : String) (issueNumber : Nat)
  | removeContainer (containerId : String)
deriving DecidableEq, Repr

/-- The new registry state together with the external calls the handler issued. -/
structure StepResult where
  state : StateManager
  actions : List Action
deriving Repr

/-- Reply posted when a trigger hits an already-active issue. -/
def alreadyHandledMsg : String :=
  "🔄 This issue is already being handled by an agent."

/-- Reply posted when all agent slots are full. -/
def queueFullMsg (queuePos : Int) : String :=
  "🕐 All agent slots are full. Queue position: #" ++ toString queuePos ++
    ". An agent will start when a slot becomes available."

/-- Initial comment posted before the container starts. -/
def startingMsg (branchName : String) : String :=
  "🚀 Starting agent for this issue...\n\n- Branch: `" ++ branchName ++
    "`\n- Status: Initializing container"

/-- Comment posted when the container failed to start. -/
def startFailedMsg : String :=
  "❌ Failed to start agent. Please check the orchestrator logs."

/-- `Orchestrator.handleIssueTriggered`. Duplicate keys and full capacity are
rejected with an informational reply; otherwise the container start is attempted
(`startResult` is the external runtime's answer: the container id on success) and
the unit is registered only after a successful start. This is the handler body
applied to a well-formed payload object, i.e. the webhook delivery;
`handleIssueTriggeredUntyped` below is the same body over the handler's actual
untyped `(issue, commentId)` signature, covering the poll delivery too. -/
def handleIssueTriggered (s : StateManager) (ev : TriggerEvent) (commentId : Nat)
    (startResult : Option String) (now : Nat) : StepResult :=
  if s.isIssueActive ev.owner ev.repo ev.number then
    { state := s
      actions := [Action.postComment ev.owner ev.repo ev.number alreadyHandledMsg] }
  else if !s.canStartNew then
    { state := s
      actions := [Action.postComment ev.owner ev.repo ev.number
        (queueFullMsg s.getQueuePosition)] }
  else
    let branchName := "ai-agent-issue-" ++ toString ev.number ++ "-" ++ toString now
    let preActions : List Action :=
      [Action.addReaction ev.owner ev.repo commentId "rocket",
       Action.postComment ev.owner ev.repo ev.number (startingMsg branchName),
       Action.startContainer ev.owner ev.repo ev.number]
    match startResult with
    | some containerId =>
      let activeIssue : ActiveIssue :=
        { repoOwner := ev.owner
          repoName := ev.repo
          issueNumber := ev.number
          issueTitle := ev.title
          issueBody := ev.body
          containerId := containerId
          containerName := "agent-" ++ ev.owner ++ "-" ++ ev.repo ++ "-issue-" ++
            toString ev.number
          status := ActiveIssueStatus.starting
          branchName := branchName
          startedAt := now
          lastHeartbeat := none
          prNumber := none
          error := none }
      { state := s.registerIssue activeIssue, actions := preActions }
    | none =>
      { state := s
        actions := preActions ++ [Action.postComment ev.owner ev.repo ev.number startFailedMsg] }

/-- A JavaScript value as it flows through the trigger delivery paths; only the
shapes that occur there are modeled: strings, numbers, plain objects and
`undefined`. -/
inductive JsVal where
  | str : String → JsVal
  | num : Nat → JsVal
  | obj : List (String × JsVal) → JsVal
  | undefined : JsVal

/-- JavaScript property access as used by the handler's destructuring
`const { owner, repo, number } = issue` (with `issue: any`): a plain object is
looked up by key; a string, a number or `undefined` has no own property named
`owner`, `repo` or `number`, so the access yields `undefined`. -/
def JsVal.getProp (v : JsVal) (k : String) : JsVal :=
  match v with
  | .obj fields => (mapGet fields k).getD .undefined
  | _ => .undefined

/-- JavaScript template-literal stringification of those values, as performed
by every backtick template and by the REST layer's URL interpolation. -/
def JsVal.template : JsVal → String
  | .str s => s
  | .num n => toString n
  | .obj _ => "[object Object]"
  | .undefined => "undefined"

/-- The key the handler's duplicate check and registration actually compute:
`isIssueActive(owner, repo, number)` and `registerIssue` both build
`owner/repo#issueNumber` by template literal, which stringifies each value. On
well-typed arguments this agrees with `getIssueKey`:
`jsIssueKey (.str o) (.str r) (.num n) = getIssueKey o r n` holds by
definitional unfolding. -/
def jsIssueKey (owner repo number : JsVal) : String :=
  owner.template ++ "/" ++ repo.template ++ "#" ++ number.template

/-- The first argument the webhook path hands to `handleIssueTriggered`: both
webhook routes call
`onIssueTriggered({ owner, repo, number, title, body, htmlUrl, user }, id)`
with the payload object. -/
def pushIssueArg (owner repo : String) (number : Nat)
    (title body htmlUrl userLogin : String) : JsVal :=
  JsVal.obj [("owner", JsVal.str owner), ("repo", JsVal.str repo),
    ("number", JsVal.num number), ("title", JsVal.str title),
    ("body", JsVal.str body), ("htmlUrl", JsVal.str htmlUrl),
    ("user", JsVal.obj [("login", JsVal.str userLogin)])]

/-- The first argument the poll path hands to `handleIssueTriggered`:
`GitHubPoller` invokes `this.handlers.onIssueTriggered(repo.owner, repo.name,
issue.number, repo.triggerComment)` while the orchestrator bound
`handleIssueTriggered(issue: any, commentId: number)`, so JavaScript binds the
first positional argument — the owner STRING — to `issue` and discards the
surplus arguments. -/
def pollIssueArg (owner : String) ( _name : String) ( _number : Nat)
    ( _trigger : String) : JsVal :=
  JsVal.str owner

/-- The second argument of the same poll-path call: the repository name lands
in the handler's `commentId` parameter. -/
def pollCommentIdArg ( _owner : String) (name : String) ( _number : Nat)
    ( _trigger : String) : JsVal :=
  JsVal.str name

/-- An external call as issued from the untyped handler body: the REST layer
interpolates every parameter into the request route, so targets are recorded
stringified. -/
inductive RawAction where
  | postComment (owner repo issueNumber text : String)
  | addReaction (owner repo commentId reaction : String)
  | startContainer (owner repo issueNumber : String)
deriving DecidableEq, Repr

/-- Result of the untyped handler body: the record handed to `registerIssue`
carries exactly the destructured values, so the registry insertion is recorded
by the key `registerIssue` computes for that record (`jsIssueKey` of the
destructured triple); `actions` are the external calls issued. -/
structure RawStepResult where
  registeredKey : Option String
  actions : List RawAction
deriving DecidableEq, Repr

/-- `Orchestrator.handleIssueTriggered` over its actual
`(issue: any, commentId: number)` signature: destructure `issue`, run the
duplicate check and the capacity check on the destructured values, reply to the
destructured target, and on the start path register under the key built from
the destructured triple. `handleIssueTriggered` above is this same body
specialized to a well-formed payload object (`pushIssueArg`, the webhook
delivery); the poller delivers `pollIssueArg`/`pollCommentIdArg` instead. -/
def handleIssueTriggeredUntyped (s : StateManager) (issue commentId : JsVal)
    (startResult : Option String) (now : Nat) : RawStepResult :=
  let owner := issue.getProp "owner"
  let repo := issue.getProp "repo"
  let number := issue.getProp "number"
  if (mapGet s.activeIssues (jsIssueKey owner repo number)).isSome then
    { registeredKey := none
      actions := [RawAction.postComment owner.template repo.template number.template
        alreadyHandledMsg] }
  else if !s.canStartNew then
    { registeredKey := none
      actions := [RawAction.postComment owner.template repo.template number.template
        (queueFullMsg s.getQueuePosition)] }
  else
    let branchName := "ai-agent-issue-" ++ number.template ++ "-" ++ toString now
    let preActions : List RawAction :=
      [RawAction.addReaction owner.template repo.template commentId.template "rocket",
       RawAction.postComment owner.template repo.template number.template
         (startingMsg branchName),
       RawAction.startContainer owner.template repo.template number.template]
    match startResult with
    | some _ =>
      { registeredKey := some (jsIssueKey owner repo number), actions := preActions }
    | none =>
      { registeredKey := none
        actions := preActions ++ [RawAction.postComment owner.template repo.template
          number.template startFailedMsg] }

/-- Final comment posted after a PR closure tears an agent down. -/
def prClosedMsg (prNumber : Nat) : String :=
  "✅ Agent completed for this issue. PR #" ++ toString prNumber ++
    " has been closed and container cleaned up."

/-- `Orchestrator.handlePRClosed`: find the unit correlated with the PR; remove its
container and then the registry entry. `removeOk` is whether the external container
removal succeeded; a failure aborts the teardown (the catch only logs). -/
def handlePRClosed (s : StateManager) (prNumber : Nat) (removeOk : Bool) : StepResult :=
  match s.getAllActive.find? (fun i => i.prNumber = some prNumber) with
  | none => { state := s, actions := [] }
  | some issue =>
    if issue.containerId ≠ "" ∧ removeOk = false then
      { state := s, actions := [Action.removeContainer issue.containerId] }
    else
      { state := s.removeIssue issue.repoOwner issue.repoName issue.issueNumber
        actions :=
          (if issue.containerId ≠ "" then [Action.removeContainer issue.containerId] else []) ++
          [Action.postComment issue.repoOwner issue.repoName issue.issueNumber
            (prClosedMsg prNumber)] }

/-- One event consumed by the orchestrator's single logical control thread. -/
inductive OrchEvent where
  | trigger (ev : TriggerEvent) (commentId : Nat) (startResult : Option String) (now : Nat)
  | prClosed (prNumber : Nat) (removeOk : Bool)

/-- Registry effect of one orchestrator event. -/
def stepOrch (s : StateManager) : OrchEvent → StateManager
  | OrchEvent.trigger ev commentId startResult now =>
    (handleIssueTriggered s ev commentId startResult now).state
  | OrchEvent.prClosed prNumber removeOk => (handlePRClosed s prNumber removeOk).state

/-- Process a sequence of trigger/closure events one at a time. -/
def runOrch (s : StateManager) (events : List OrchEvent) : StateManager :=
  events.foldl stepOrch s

/-- The empty registry with the given concurrency ceiling. -/
def emptyState (maxConcurrent : Nat) : StateManager :=
  { activeIssues := [], maxConcurrent := maxConcurrent }

/-- A live unit of work on issue o/r#1, for the duplicate-trigger scenario. -/
def c2Unit : ActiveIssue :=
  { repoOwner := "o", repoName := "r", issueNumber := 1, issueTitle := "t",
    issueBody := "b", containerId := "c0", containerName := "cn",
    status := ActiveIssueStatus.developing, branchName := "bn", startedAt := 0,
    lastHeartbeat := none, prNumber := none, error := none }

/-- A registry holding that one live unit with slots to spare. -/
def c2Sm : StateManager :=
  (emptyState 3).registerIssue c2Unit

/-- A status update pushed by a workload to the core's `/api/status` endpoint. -/
structure StatusUpdate where
  container_id : String
  status : Option ActiveIssueStatus
  message : String
  timestamp : Nat
deriving DecidableEq, Repr

/-- The `/api/status` route of the webhook server, as written in the source: it
logs the received update and replies `received: true`; it performs no registry
lookup and no mutation whatsoever. -/
def apiStatusRoute (s : StateManager) (u : StatusUpdate) : StateManager × Bool :=
  let _ := u.container_id
  (s, true)

/-- Keys stored in the registry are exactly the composite keys of their values,
and no key occurs twice (both hold for every state reachable through the
state-manager operations). -/
def StateManager.WF (s : StateManager) : Prop :=
  (∀ p ∈ s.activeIssues, p.1 = getIssueKey p.2.repoOwner p.2.repoName p.2.issueNumber) ∧
  (s.activeIssues.map Prod.fst).Nodup

/-- Diagnostic error recorded when the runtime reports a terminated container. -/
def containerDeadMsg (containerStatus : String) : String :=
  "Container terminated unexpectedly (status: " ++ containerStatus ++ ")"

/-- Comment notifying on GitHub that an agent's container terminated. -/
def crashNotifyMsg (containerStatus : String) : String :=
  "❌ Agent encountered an error and stopped.\n\nContainer status: " ++ containerStatus ++
    "\n\nPlease check the issue or try triggering the agent again."

/-- Whether an action is a comment posted to the given issue. -/
def notifiesIssue (a : Action) (owner repo : String) (issueNumber : Nat) : Bool :=
  match a with
  | Action.postComment o r n _ => o = owner ∧ r = repo ∧ n = issueNumber
  | _ => false

/-- One pass of `Orchestrator.startHealthCheckLoop`: the stale list is computed
once up front; for each stale unit the runtime is queried (`containerStatus`
returns `none` when the inspect call itself fails, in which case the unit is
left untouched); an `exited` or `dead` answer forces the unit to `error` with a
diagnostic message and — when the subsequent log fetch succeeds (`logsOk`) —
posts exactly one notification comment for it. -/
def healthStep (now : Nat) (containerStatus : String → Option String)
    (logsOk : String → Bool) (acc : StateManager × List Action) (issue : ActiveIssue) :
    StateManager × List Action :=
  match containerStatus issue.containerId with
  | none => acc
  | some cst =>
    if cst = "exited" ∨ cst = "dead" then
      let s1 := acc.1.updateIssueStatus issue.repoOwner issue.repoName issue.issueNumber
        ActiveIssueStatus.error (some (containerDeadMsg cst)) now
      if logsOk issue.containerId then
        (s1, acc.2 ++ [Action.postComment issue.repoOwner issue.repoName issue.issueNumber
          (crashNotifyMsg cst)])
      else (s1, acc.2)
    else acc

/-- One pass of the health-check loop: fold `healthStep` over the stale list. -/
def healthCheck (s : StateManager) (now : Nat) (containerStatus : String → Option String)
    (logsOk : String → Bool) : StateManager × List Action :=
  (s.getStaleIssues now (5 * 60 * 1000)).foldl (healthStep now containerStatus logsOk) (s, [])

/-- Lower-case an ASCII letter; models the JS `toLowerCase` on the ASCII logins
and trigger phrases the poller compares. -/
def lowerChar (c : Char) : Char :=
  if 65 ≤ c.toNat ∧ c.toNat ≤ 90 then Char.ofNat (c.toNat + 32) else c

/-- Model of `String.toLowerCase`. -/
def strLower (s : String) : String :=
  String.mk (s.data.map lowerChar)

/-- Model of `String.endsWith`. -/
def strEndsWith (s p : String) : Bool :=
  p.data.isSuffixOf s.data

/-- Model of `String.startsWith`. -/
def strStartsWith (s p : String) : Bool :=
  p.data.isPrefixOf s.data

/-- Helper for `strContains`: does `p` occur starting at any position? -/
def containsAux (p : List Char) : List Char → Bool
  | [] => p.isPrefixOf []
  | c :: rest => p.isPrefixOf (c :: rest) || containsAux p rest

/-- Model of `String.includes`. -/
def strContains (s p : String) : Bool :=
  containsAux p.data s.data

/-- `GitHubPoller.isBotUser`: a missing login counts as a bot; otherwise the
lowercased login is tested against the bot suffix patterns. -/
def isBotUser (login : Option String) : Bool :=
  match login with
  | none => true
  | some l =>
    ["[bot]", "-bot", "bot", "agent", "ai-agent"].any (fun p => strEndsWith (strLower l) p)

/-- `GitHubPoller.isTriggerComment`: case-insensitive substring match of the
configured trigger phrase. -/
def isTriggerComment (body trigger : String) : Bool :=
  strContains (strLower body) (strLower trigger)

/-- An issue record from a GitHub issues listing, as the poller reads it. -/
structure IssueData where
  number : Nat
  isPR : Bool
  userLogin : Option String
  body : String
deriving DecidableEq, Repr

/-- A comment record from a GitHub comment listing. -/
structure CommentData where
  id : Nat
  userLogin : Option String
  body : String
deriving DecidableEq, Repr

/-- A pull-request record from a GitHub PR listing. -/
structure PRData where
  number : Nat
  headRef : String
  state : String
deriving DecidableEq, Repr

/-- A review record from a GitHub review listing. -/
structure ReviewData where
  id : Nat
  userLogin : Option String
  state : String
  body : String
deriving DecidableEq, Repr

/-- The core rate-limit figures returned by the rate-limit endpoint. -/
structure RateLimit where
  remaining : Nat
  limit : Nat
deriving DecidableEq, Repr

/-- Poller watermark state (`PollState` in the source): per-repo last issue poll
timestamp, per-repo map from issue number to last seen comment id, known agent
PR keys, and per-PR last seen review id. -/
structure PollState where
  lastIssueCheck : List (String × Nat)
  lastCommentCheck : List (String × List (Nat × Nat))
  knownPRs : List String
  knownReviews : List (String × Nat)
deriving DecidableEq, Repr

/-- The poller state at startup: four empty maps. -/
def emptyPollState : PollState :=
  { lastIssueCheck := [], lastCommentCheck := [], knownPRs := [], knownReviews := [] }

/-- Keys of the poller maps are duplicate-free (holds for every state reachable
through the poller operations, which only use `Map`/`Set` mutation). -/
def PollState.WF (ps : PollState) : Prop :=
  (ps.lastIssueCheck.map Prod.fst).Nodup ∧
  (ps.lastCommentCheck.map Prod.fst).Nodup ∧
  ps.knownPRs.Nodup ∧
  (ps.knownReviews.map Prod.fst).Nodup

/-- Events the poller hands to the orchestrator handlers. -/
inductive PollEvent where
  | issueTriggered (issueNumber : Nat)
  | prClosed (prNumber : Nat)
  | prReview (prNumber reviewId : Nat)
deriving DecidableEq, Repr

/-- Loop body of `pollNewIssues` over the fetched batch: PR entries are skipped;
a trigger event is emitted for each issue whose body matches the trigger phrase.
`handlerFails n = true` models the awaited `onIssueTriggered` call throwing for
issue `n`, which aborts the loop (the surrounding catch then skips the
watermark update). Returns (threw, events emitted before the throw, whether at
least one non-PR iteration ran to completion). -/
def processIssues (trigger : String) (handlerFails : Nat → Bool) :
    List IssueData → Bool × List PollEvent × Bool
  | [] => (false, [], false)
  | i :: rest =>
    if i.isPR then processIssues trigger handlerFails rest
    else if isTriggerComment i.body trigger then
      if handlerFails i.number then (true, [], false)
      else
        let r := processIssues trigger handlerFails rest
        (r.1, PollEvent.issueTriggered i.number :: r.2.1, true)
    else
      let r := processIssues trigger handlerFails rest
      (r.1, r.2.1, true)

/-- The per-iteration init line of `pollNewIssues`: create the per-repo comment
map if absent. -/
def ensureCommentEntry (st : PollState) (repoKey : String) : PollState :=
  match mapGet st.lastCommentCheck repoKey with
  | some _ => st
  | none => { st with lastCommentCheck := mapSet st.lastCommentCheck repoKey [] }

/-- `GitHubPoller.pollNewIssues`: emit triggers for the fetched batch and then
advance the per-repo issue watermark to `now` (captured after the fetch); a
listing failure (`none`) or a handler throw leaves the watermark unchanged. -/
def pollNewIssues (repoKey trigger : String) (st : PollState)
    (issuesResult : Option (List IssueData)) (handlerFails : Nat → Bool) (now : Nat) :
    PollState × List PollEvent :=
  match issuesResult with
  | none => (st, [])
  | some issues =>
    let r := processIssues trigger handlerFails issues
    let st1 := if r.2.2 then ensureCommentEntry st repoKey else st
    if r.1 then (st1, r.2.1)
    else ({ st1 with lastIssueCheck := mapSet st1.lastIssueCheck repoKey now }, r.2.1)

/-- Loop body of the comment scan for one issue: already-seen and bot comments
are skipped; a matching comment emits a trigger event for the issue; a handler
throw (`handlerFails c.id`) aborts the scan for this issue. -/
def processComments (trigger : String) (issueNumber lastCommentId : Nat)
    (handlerFails : Nat → Bool) : List CommentData → Bool × List PollEvent
  | [] => (false, [])
  | c :: rest =>
    if c.id ≤ lastCommentId then
      processComments trigger issueNumber lastCommentId handlerFails rest
    else if isBotUser c.userLogin then
      processComments trigger issueNumber lastCommentId handlerFails rest
    else if isTriggerComment c.body trigger then
      if handlerFails c.id then (true, [])
      else
        let r := processComments trigger issueNumber lastCommentId handlerFails rest
        (r.1, PollEvent.issueTriggered issueNumber :: r.2)
    else processComments trigger issueNumber lastCommentId handlerFails rest

/-- Maximum comment id of a batch (`Math.max(...ids)`; only used on a non-empty
batch). -/
def maxCommentId (cs : List CommentData) : Nat :=
  (cs.map (fun c => c.id)).foldr max 0

/-- Maximum review id of a batch. -/
def maxReviewId (rs : List ReviewData) : Nat :=
  (rs.map (fun r => r.id)).foldr max 0

/-- Per-issue step of `pollIssueComments`: PR entries and bot-authored issues
are skipped; on a successful comment fetch the batch is scanned and, unless the
scan threw and unless the batch is empty, this issue's watermark is set to the
maximum id of the whole batch (of the whole batch, not only of fresh comments). -/
def pollCommentsForIssue (trigger : String) (commentFetch : Nat → Option (List CommentData))
    (handlerFails : Nat → Nat → Bool) (acc : List (Nat × Nat) × List PollEvent)
    (issue : IssueData) : List (Nat × Nat) × List PollEvent :=
  if issue.isPR then acc
  else if isBotUser issue.userLogin then acc
  else
    let lastId := (mapGet acc.1 issue.number).getD 0
    match commentFetch issue.number with
    | none => acc
    | some comments =>
      let r := processComments trigger issue.number lastId (handlerFails issue.number) comments
      if r.1 then (acc.1, acc.2 ++ r.2)
      else if comments.isEmpty then (acc.1, acc.2 ++ r.2)
      else (mapSet acc.1 issue.number (maxCommentId comments), acc.2 ++ r.2)

/-- `GitHubPoller.pollIssueComments`: on a successful open-issues listing, fold
the per-issue comment scan over the batch (a per-issue fetch or handler failure
leaves that issue's watermark unchanged while the scan continues with the other
issues), then store the updated per-repo comment map; a failed listing changes
nothing. -/
def pollIssueComments (repoKey trigger : String) (st : PollState)
    (issuesResult : Option (List IssueData)) (commentFetch : Nat → Option (List CommentData))
    (handlerFails : Nat → Nat → Bool) : PollState × List PollEvent :=
  match issuesResult with
  | none => (st, [])
  | some issues =>
    let m0 := (mapGet st.lastCommentCheck repoKey).getD []
    let r := issues.foldl (pollCommentsForIssue trigger commentFetch handlerFails) (m0, [])
    ({ st with lastCommentCheck := mapSet st.lastCommentCheck repoKey r.1 }, r.2)

/-- Key of a PR in the poller maps: `owner/name#number`. -/
def prKeyOf (repoKey : String) (prNumber : Nat) : String :=
  repoKey ++ "#" ++ toString prNumber

/-- Loop body of the review scan for one PR: already-seen and bot reviews are
skipped; `CHANGES_REQUESTED` and `COMMENTED` reviews are surfaced; a handler
throw aborts this PR's scan. -/
def processReviews (prNumber lastReviewId : Nat) (handlerFails : Nat → Bool) :
    List ReviewData → Bool × List PollEvent
  | [] => (false, [])
  | rv :: rest =>
    if rv.id ≤ lastReviewId then processReviews prNumber lastReviewId handlerFails rest
    else if isBotUser rv.userLogin then processReviews prNumber lastReviewId handlerFails rest
    else if rv.state = "CHANGES_REQUESTED" ∨ rv.state = "COMMENTED" then
      if handlerFails rv.id then (true, [])
      else
        let q := processReviews prNumber lastReviewId handlerFails rest
        (q.1, PollEvent.prReview prNumber rv.id :: q.2)
    else processReviews prNumber lastReviewId handlerFails rest

/-- `GitHubPoller.pollPRReviews`: on a successful review fetch, scan the batch
and — unless the scan threw and unless the batch is empty — advance this PR's
review watermark to the maximum id of the whole batch. A fetch failure or a
throw leaves the watermark unchanged. -/
def pollPRReviews (repoKey : String) (st : PollState) (pr : PRData)
    (reviewsResult : Option (List ReviewData)) (handlerFails : Nat → Bool) :
    PollState × List PollEvent :=
  let prKey := prKeyOf repoKey pr.number
  let lastReviewId := (mapGet st.knownReviews prKey).getD 0
  match reviewsResult with
  | none => (st, [])
  | some reviews =>
    let r := processReviews pr.number lastReviewId handlerFails reviews
    if r.1 then (st, r.2)
    else if reviews.isEmpty then (st, r.2)
    else ({ st with knownReviews := mapSet st.knownReviews prKey (maxReviewId reviews) }, r.2)

/-- Per-PR step of `pollOurPRs`: only branches matching the agent naming
convention are considered; the PR is added to the known set and its reviews are
scanned; if the fetched record reports the PR closed, one closure event is
emitted (the orchestrator's `onPRClosed` handler traps all of its own failures,
so the awaited call cannot throw) and both of the PR's watermark entries are
deleted. -/
def pollPRStep (repoKey : String) (reviewsFetch : Nat → Option (List ReviewData))
    (reviewHandlerFails : Nat → Nat → Bool) (acc : PollState × List PollEvent)
    (pr : PRData) : PollState × List PollEvent :=
  if !strStartsWith pr.headRef "ai-agent-issue-" then acc
  else
    let prKey := prKeyOf repoKey pr.number
    let st1 := { acc.1 with knownPRs := setAdd acc.1.knownPRs prKey }
    let r := pollPRReviews repoKey st1 pr (reviewsFetch pr.number) (reviewHandlerFails pr.number)
    if pr.state = "closed" then
      ({ r.1 with
          knownPRs := setDelete r.1.knownPRs prKey,
          knownReviews := mapDelete r.1.knownReviews prKey },
        acc.2 ++ r.2 ++ [PollEvent.prClosed pr.number])
    else (r.1, acc.2 ++ r.2)

/-- `GitHubPoller.pollOurPRs`: fold the per-PR step over the fetched PR list; a
failed listing changes nothing. -/
def pollOurPRs (repoKey : String) (st : PollState) (prsResult : Option (List PRData))
    (reviewsFetch : Nat → Option (List ReviewData))
    (reviewHandlerFails : Nat → Nat → Bool) : PollState × List PollEvent :=
  match prsResult with
  | none => (st, [])
  | some prs => prs.foldl (pollPRStep repoKey reviewsFetch reviewHandlerFails) (st, [])

/-- Configuration of one tracked repository. -/
structure RepoConfig where
  owner : String
  name : String
  triggerComment : String
  enabled : Bool
deriving DecidableEq, Repr

/-- The key `owner/name` under which a repository's watermarks are stored. -/
def repoKeyOf (cfg : RepoConfig) : String :=
  cfg.owner ++ "/" ++ cfg.name

/-- The external responses and handler outcomes feeding one repository's poll
cycle: the two issue listings, the per-issue comment fetches, the PR listing,
the per-PR review fetches, and the handler-failure oracles. -/
structure RepoCycleInput where
  sinceIssuesResult : Option (List IssueData)
  now : Nat
  issueHandlerFails : Nat → Bool
  openIssuesResult : Option (List IssueData)
  commentFetch : Nat → Option (List CommentData)
  commentHandlerFails : Nat → Nat → Bool
  prsResult : Option (List PRData)
  reviewsFetch : Nat → Option (List ReviewData)
  reviewHandlerFails : Nat → Nat → Bool

/-- `GitHubPoller.pollRepo`: the three scans in order, threading the watermark
state and collecting the emitted events. -/
def pollRepo (cfg : RepoConfig) (inp : RepoCycleInput) (st : PollState) :
    PollState × List PollEvent :=
  let rk := repoKeyOf cfg
  let r1 := pollNewIssues rk cfg.triggerComment st inp.sinceIssuesResult
    inp.issueHandlerFails inp.now
  let r2 := pollIssueComments rk cfg.triggerComment r1.1 inp.openIssuesResult
    inp.commentFetch inp.commentHandlerFails
  let r3 := pollOurPRs rk r2.1 inp.prsResult inp.reviewsFetch inp.reviewHandlerFails
  (r3.1, r1.2 ++ r2.2 ++ r3.2)

/-- `GitHubPoller.checkRateLimit`: skip (false) only when the rate-limit request
succeeded and fewer than 10 percent of the limit remain; a failed request is
fail-open (true). The JS comparison `rate.remaining < rate.limit * 0.1` is
modelled with exact rational arithmetic. -/
def checkRateLimit (rate : Option RateLimit) : Bool :=
  match rate with
  | none => true
  | some rl => !(decide ((rl.remaining : ℚ) < (rl.limit : ℚ) * (1 / 10)))

/-- Poll every repository in order, tagging each event with its repo key. -/
def runRepos : List (RepoConfig × RepoCycleInput) → PollState →
    PollState × List (String × PollEvent)
  | [], st => (st, [])
  | (cfg, inp) :: rest, st =>
    let r := pollRepo cfg inp st
    let q := runRepos rest r.1
    (q.1, r.2.map (fun e => (repoKeyOf cfg, e)) ++ q.2)

/-- `GitHubPoller.pollAll`: one rate-limit check guards the whole cycle; when it
says to proceed, the enabled repositories are polled in order. -/
def pollAll (rate : Option RateLimit) (repos : List (RepoConfig × RepoCycleInput))
    (st : PollState) : PollState × List (String × PollEvent) :=
  if checkRateLimit rate = false then (st, [])
  else runRepos (repos.filter (fun p => p.1.enabled)) st

/-- Combined orchestrator and poller state, for the closure teardown path. -/
structure SystemState where
  sm : StateManager
  poll : PollState
deriving Repr

/-- The closed-PR branch of `pollOurPRs` with the orchestrator's `onPRClosed`
handler (`handlePRClosed`) inlined, exactly as wired in polling mode: the
handler runs first (it traps its own failures), then the PR's known-PR entry
and review-watermark entry are deleted. -/
def observePRClosed (sys : SystemState) (repoKey : String) (prNumber : Nat)
    (removeOk : Bool) : SystemState × List Action :=
  let r := handlePRClosed sys.sm prNumber removeOk
  let prKey := prKeyOf repoKey prNumber
  ({ sm := r.state,
     poll := { sys.poll with
               knownPRs := setDelete sys.poll.knownPRs prKey,
               knownReviews := mapDelete sys.poll.knownReviews prKey } },
   r.actions)

/-- A one-unit registry used to exhibit the status-endpoint divergence: the
unit's container id is `c1` and it has no heartbeat yet. -/
def c5State : StateManager :=
  (emptyState 3).registerIssue
    { repoOwner := "o", repoName := "r", issueNumber := 1, issueTitle := "t",
      issueBody := "b", containerId := "c1", containerName := "n",
      status := ActiveIssueStatus.starting, branchName := "bn", startedAt := 0,
      lastHeartbeat := none, prNumber := none, error := none }

/-- A status update whose container id matches the registered unit of `c5State`. -/
def c5Update : StatusUpdate :=
  { container_id := "c1", status := some ActiveIssueStatus.developing,
    message := "working", timestamp := 42 }

/-- A unit correlated with PR 7, already in a terminal status. -/
def c7Unit : ActiveIssue :=
  { repoOwner := "o", repoName := "r", issueNumber := 1, issueTitle := "t",
    issueBody := "b", containerId := "c1", containerName := "n",
    status := ActiveIssueStatus.done, branchName := "ai-agent-issue-1-0", startedAt := 0,
    lastHeartbeat := some 0, prNumber := some 7, error := none }

/-- A combined state holding `c7Unit` plus its known-PR and review-watermark
entries. -/
def c7Sys : SystemState :=
  { sm := (emptyState 3).registerIssue c7Unit,
    poll := { lastIssueCheck := [], lastCommentCheck := [],
              knownPRs := ["o/r#7"], knownReviews := [("o/r#7", 5)] } }

/-- A registry holding one heartbeat-less unit started at time 0, for the
health-check scenario. -/
def c6Unit : ActiveIssue :=
  { repoOwner := "o", repoName := "r", issueNumber := 1, issueTitle := "t",
    issueBody := "b", containerId := "c1", containerName := "n",
    status := ActiveIssueStatus.developing, branchName := "ai-agent-issue-1-0",
    startedAt := 0, lastHeartbeat := none, prNumber := none, error := none }

/-- The registry for the health-check scenario. -/
def c6State : StateManager :=
  (emptyState 3).registerIssue c6Unit

/-- Watermark state for the comment-scan scenario: issue 7 at comment id 100,
issue 9 at comment id 200. -/
def c3St : PollState :=
  { lastIssueCheck := [], lastCommentCheck := [("o/r", [(7, 100), (9, 200)])],
    knownPRs := [], knownReviews := [] }

/-- Tracked-repository config for the comment-scan scenario. -/
def c3Cfg : RepoConfig :=
  { owner := "o", name := "r", triggerComment := "@ai-agent", enabled := true }

/-- Cycle inputs for the comment-scan scenario: issue 7's fetch returns comments
101, 102, 103 while issue 9's fetch fails. -/
def c3Inp : RepoCycleInput :=
  { sinceIssuesResult := some []
    now := 5000
    issueHandlerFails := fun _ => false
    openIssuesResult := some
      [{ number := 7, isPR := false, userLogin := some "alice", body := "a" },
       { number := 9, isPR := false, userLogin := some "alice", body := "b" }]
    commentFetch := fun n =>
      if n = 7 then
        some [{ id := 101, userLogin := some "alice", body := "c" },
              { id := 102, userLogin := some "alice", body := "d" },
              { id := 103, userLogin := some "alice", body := "e" }]
      else none
    commentHandlerFails := fun _ _ => false
    prsResult := some []
    reviewsFetch := fun _ => none
    reviewHandlerFails := fun _ _ => false }

theorem mapGet_mapSet_self {κ : Type u} {α : Type v} [DecidableEq κ]
    (m : List (κ × α)) (k : κ) (v : α) : mapGet (mapSet m k v) k = some v := by
  induction m with
  | nil => simp [mapSet, mapGet]
  | cons p rest ih =>
    by_cases h : p.1 = k
    · simp [mapSet, mapGet, h]
    · simp [mapSet, mapGet, h, ih]

theorem mapGet_mapSet_ne {κ : Type u} {α : Type v} [DecidableEq κ]
    (m : List (κ × α)) (k k' : κ) (v : α) (hne : k ≠ k') :
    mapGet (mapSet m k v) k' = mapGet m k' := by
  induction m with
  | nil => simp [mapSet, mapGet, hne]
  | cons p rest ih =>
    obtain ⟨pk, pv⟩ := p
    by_cases h : pk = k
    · subst h
      simp [mapSet, mapGet, hne]
    · by_cases h' : pk = k'
      · simp [mapSet, mapGet, h, h', Ne.symm hne]
      · simp [mapSet, mapGet, h, h', ih]

theorem length_mapSet_of_get_some {κ : Type u} {α : Type v} [DecidableEq κ]
    (m : List (κ × α)) (k : κ) (v : α) (h : (mapGet m k).isSome) :
    (mapSet m k v).length = m.length := by
  induction m with
  | nil => simp [mapGet] at h
  | cons p rest ih =>
    by_cases hp : p.1 = k
    · simp [mapSet, hp]
    · simp [mapGet, hp] at h
      simp [mapSet, hp, ih h]

theorem length_mapSet_le {κ : Type u} {α : Type v} [DecidableEq κ]
    (m : List (κ × α)) (k : κ) (v : α) :
    (mapSet m k v).length ≤ m.length + 1 := by
  induction m with
  | nil => simp [mapSet]
  | cons p rest ih =>
    by_cases hp : p.1 = k
    · simp [mapSet, hp]
    · simp only [mapSet, hp, if_false, List.length_cons]
      omega

theorem length_mapDelete_le {κ : Type u} {α : Type v} [DecidableEq κ]
    (m : List (κ × α)) (k : κ) :
    (mapDelete m k).length ≤ m.length := by
  induction m with
  | nil => simp [mapDelete]
  | cons p rest ih =>
    by_cases hp : p.1 = k
    · simp [mapDelete, hp]
    · simp only [mapDelete, hp, if_false, List.length_cons]
      omega

/-- Lifecycle status values, from the orchestrator types. -/
theorem mem_mapSet {κ : Type u} {α : Type v} [DecidableEq κ]
    {m : List (κ × α)} {k : κ} {v : α} {p : κ × α} (h : p ∈ mapSet m k v) :
    p = (k, v) ∨ p ∈ m := by
  induction m with
  | nil => simpa [mapSet] using h
  | cons q rest ih =>
    by_cases hq : q.1 = k
    · simp only [mapSet, hq, if_true] at h
      rcases List.mem_cons.mp h with h | h
      · exact Or.inl h
      · exact Or.inr (List.mem_cons_of_mem _ h)
    · simp only [mapSet, hq, if_false] at h
      rcases List.mem_cons.mp h with h | h
      · exact Or.inr (h ▸ List.mem_cons_self _ _)
      · rcases ih h with h | h
        · exact Or.inl h
        · exact Or.inr (List.mem_cons_of_mem _ h)

theorem string_append_cancel_right (a b c : String) (h : a ++ c = b ++ c) : a = b := by
  apply String.ext
  have h' := congrArg String.data h
  simp only [String.data_append] at h'
  exact List.append_cancel_right h'

theorem string_append_cancel_left (a b c : String) (h : a ++ b = a ++ c) : b = c := by
  apply String.ext
  have h' := congrArg String.data h
  simp only [String.data_append] at h'
  exact List.append_cancel_left h'

theorem getIssueKey_owner_inj (o o' r : String) (n : Nat)
    (h : getIssueKey o r n = getIssueKey o' r n) : o = o' := by
  unfold getIssueKey at h
  have h1 := string_append_cancel_right _ _ _ h
  have h2 := string_append_cancel_right _ _ _ h1
  have h3 := string_append_cancel_right _ _ _ h2
  exact string_append_cancel_right _ _ _ h3

theorem getIssueKey_repo_inj (o r r' : String) (n : Nat)
    (h : getIssueKey o r n = getIssueKey o r' n) : r = r' := by
  unfold getIssueKey at h
  have h1 := string_append_cancel_right _ _ _ h
  have h2 := string_append_cancel_right _ _ _ h1
  exact string_append_cancel_left _ _ _ h2

theorem handleIssueTriggered_state_length (s : StateManager) (ev : TriggerEvent)
    (commentId : Nat) (startResult : Option String) (now : Nat)
    (h : s.activeIssues.length ≤ s.maxConcurrent) :
    (handleIssueTriggered s ev commentId startResult now).state.activeIssues.length ≤
      s.maxConcurrent := by
  unfold handleIssueTriggered
  by_cases h1 : s.isIssueActive ev.owner ev.repo ev.number
  · simpa [h1] using h
  · by_cases h2 : s.canStartNew
    · cases startResult with
      | some cid =>
        have hlt : s.activeIssues.length < s.maxConcurrent := by
          simpa [StateManager.canStartNew] using h2
        simp only [h1, h2, Bool.false_eq_true, if_false, Bool.not_true, if_true,
          StateManager.registerIssue]
        calc (mapSet s.activeIssues _ _).length ≤ s.activeIssues.length + 1 :=
              length_mapSet_le _ _ _
          _ ≤ s.maxConcurrent := hlt
      | none => simpa [h1, h2] using h
    · simpa [h1, h2] using h

theorem handleIssueTriggered_maxConcurrent (s : StateManager) (ev : TriggerEvent)
    (commentId : Nat) (startResult : Option String) (now : Nat) :
    (handleIssueTriggered s ev commentId startResult now).state.maxConcurrent =
      s.maxConcurrent := by
  unfold handleIssueTriggered
  by_cases h1 : s.isIssueActive ev.owner ev.repo ev.number
  · simp [h1]
  · by_cases h2 : s.canStartNew
    · cases startResult with
      | some cid => simp [h1, h2, StateManager.registerIssue]
      | none => simp [h1, h2]
    · simp [h1, h2]

theorem handlePRClosed_state_length (s : StateManager) (prNumber : Nat) (removeOk : Bool) :
    (handlePRClosed s prNumber removeOk).state.activeIssues.length ≤
      s.activeIssues.length := by
  unfold handlePRClosed
  cases hf : s.getAllActive.find? (fun i => i.prNumber = some prNumber) with
  | none => simp
  | some issue =>
    by_cases hc : issue.containerId ≠ "" ∧ removeOk = false
    · simp [hc]
    · simp only [hc, if_false]
      exact length_mapDelete_le _ _

theorem handlePRClosed_maxConcurrent (s : StateManager) (prNumber : Nat) (removeOk : Bool) :
    (handlePRClosed s prNumber removeOk).state.maxConcurrent = s.maxConcurrent := by
  unfold handlePRClosed
  cases hf : s.getAllActive.find? (fun i => i.prNumber = some prNumber) with
  | none => simp
  | some issue =>
    by_cases hc : issue.containerId ≠ "" ∧ removeOk = false
    · simp [hc]
    · simp [hc, StateManager.removeIssue]

theorem runOrch_invariant (events : List OrchEvent) (s : StateManager)
    (h : s.activeIssues.length ≤ s.maxConcurrent) :
    (runOrch s events).activeIssues.length ≤ (runOrch s events).maxConcurrent := by
  induction events generalizing s with
  | nil => simpa [runOrch] using h
  | cons e rest ih =>
    have hstep : (stepOrch s e).activeIssues.length ≤ (stepOrch s e).maxConcurrent := by
      cases e with
      | trigger ev commentId startResult now =>
        simp only [stepOrch]
        rw [handleIssueTriggered_maxConcurrent]
        exact handleIssueTriggered_state_length s ev commentId startResult now h
      | prClosed prNumber removeOk =>
        simp only [stepOrch]
        rw [handlePRClosed_maxConcurrent]
        exact le_trans (handlePRClosed_state_length s prNumber removeOk) h
    simpa [runOrch, List.foldl_cons] using ih (stepOrch s e) hstep

/-- C1: starting from the empty registry, any sequence of trigger and closure
events keeps the registry at or below `maxConcurrent` units; a trigger arriving
at or above the ceiling leaves the registry unchanged and starts no container;
and `canStartNew` holds exactly when the registry size is strictly below the
ceiling. -/
theorem capacity_never_exceeded :
    (∀ (maxConcurrent : Nat) (events : List OrchEvent),
      (runOrch (emptyState maxConcurrent) events).activeIssues.length ≤ maxConcurrent) ∧
    (∀ (s : StateManager) (ev : TriggerEvent) (commentId : Nat)
        (startResult : Option String) (now : Nat),
      s.maxConcurrent ≤ s.activeIssues.length →
      (handleIssueTriggered s ev commentId startResult now).state = s ∧
      ∀ (o r : String) (n : Nat),
        Action.startContainer o r n ∉
          (handleIssueTriggered s ev commentId startResult now).actions) ∧
    (∀ s : StateManager, s.canStartNew = true ↔
      s.activeIssues.length < s.maxConcurrent) := by
  refine ⟨?_, ?_, ?_⟩
  · intro maxConcurrent events
    have h := runOrch_invariant events (emptyState maxConcurrent) (by simp [emptyState])
    have hmax : (runOrch (emptyState maxConcurrent) events).maxConcurrent = maxConcurrent := by
      have : ∀ (evs : List OrchEvent) (s : StateManager),
          (runOrch s evs).maxConcurrent = s.maxConcurrent := by
        intro evs
        induction evs with
        | nil => intro s; simp [runOrch]
        | cons e rest ih =>
          intro s
          have : (stepOrch s e).maxConcurrent = s.maxConcurrent := by
            cases e with
            | trigger ev commentId startResult now =>
              exact handleIssueTriggered_maxConcurrent s ev commentId startResult now
            | prClosed prNumber removeOk =>
              exact handlePRClosed_maxConcurrent s prNumber removeOk
          simpa [runOrch, List.foldl_cons, this] using ih (stepOrch s e)
      simp [this, emptyState]
    rw [hmax] at h
    exact h
  · intro s ev commentId startResult now hfull
    have hcs : s.canStartNew = false := by
      simp [StateManager.canStartNew]
      exact hfull
    unfold handleIssueTriggered
    by_cases h1 : s.isIssueActive ev.owner ev.repo ev.number
    · simp [h1]
    · simp [h1, hcs]
  · intro s
    simp [StateManager.canStartNew]

theorem capacity_never_exceeded_witness :
    (runOrch (emptyState 2) []).activeIssues.length ≤ 2 ∧
    (handleIssueTriggered (emptyState 0)
        { owner := "o", repo := "r", number := 1, title := "t", body := "b",
          source := TriggerSource.poll } 5 (some "c") 0).state = emptyState 0 ∧
    ((emptyState 1).canStartNew = true ↔ (emptyState 1).activeIssues.length < 1) :=
  ⟨capacity_never_exceeded.1 2 [],
   (capacity_never_exceeded.2.1 (emptyState 0)
     { owner := "o", repo := "r", number := 1, title := "t", body := "b",
       source := TriggerSource.poll } 5 (some "c") 0 (by decide)).1,
   capacity_never_exceeded.2.2 (emptyState 1)⟩

/-- C2: code bug — the claim's poll half is false in the source. The webhook
path delivers the payload object, so a duplicate push-delivered trigger is
rejected with the single informational reply to the real issue. But the poller
invokes `onIssueTriggered(repo.owner, repo.name, issue.number,
repo.triggerComment)` against the handler's `(issue, commentId)` signature, so
the owner string is bound to `issue`; destructuring a string yields `undefined`
for owner, repo and number, and every poll-delivered trigger — in particular a
duplicate of a live unit — is checked against the constant key
"undefined/undefined#undefined". With no unit under that bogus key, a free slot
and a successful container start, the handler is not short-circuited: it posts
no reply to the real issue (every call targets owner "undefined", repo
"undefined") and registers a second unit, under the bogus key, while the real
unit is live. -/
theorem poll_duplicate_not_rejected :
    ∀ (s : StateManager) (o r : String) (n : Nat)
      (title body htmlUrl userLogin trigger containerId : String)
      (startResult : Option String) (cid now : Nat),
      s.isIssueActive o r n = true →
      mapGet s.activeIssues "undefined/undefined#undefined" = none →
      s.canStartNew = true →
      pollIssueArg o r n trigger = JsVal.str o ∧
      handleIssueTriggeredUntyped s (pushIssueArg o r n title body htmlUrl userLogin)
          (JsVal.num cid) startResult now =
        { registeredKey := none
          actions := [RawAction.postComment o r (toString n) alreadyHandledMsg] } ∧
      handleIssueTriggeredUntyped s (pollIssueArg o r n trigger)
          (pollCommentIdArg o r n trigger) (some containerId) now =
        { registeredKey := some "undefined/undefined#undefined"
          actions :=
            [RawAction.addReaction "undefined" "undefined" r "rocket",
             RawAction.postComment "undefined" "undefined" "undefined"
               (startingMsg ("ai-agent-issue-undefined-" ++ toString now)),
             RawAction.startContainer "undefined" "undefined" "undefined"] } := by
  intro s o r n title body htmlUrl userLogin trigger containerId startResult cid now
    hdup hbogus hcap
  have hdup' : (mapGet s.activeIssues (o ++ "/" ++ r ++ "#" ++ toString n)).isSome = true := by
    simpa [StateManager.isIssueActive, StateManager.getIssue, getIssueKey] using hdup
  refine ⟨rfl, ?_, ?_⟩
  · simp [handleIssueTriggeredUntyped, pushIssueArg, JsVal.getProp, mapGet,
      jsIssueKey, JsVal.template, hdup']
  · simp [handleIssueTriggeredUntyped, pollIssueArg, pollCommentIdArg, JsVal.getProp,
      jsIssueKey, JsVal.template, hbogus, hcap]

theorem poll_duplicate_not_rejected_witness :
    handleIssueTriggeredUntyped c2Sm (pollIssueArg "o" "r" 1 "@ai-agent")
        (pollCommentIdArg "o" "r" 1 "@ai-agent") (some "c1") 10 =
      { registeredKey := some "undefined/undefined#undefined"
        actions :=
          [RawAction.addReaction "undefined" "undefined" "r" "rocket",
           RawAction.postComment "undefined" "undefined" "undefined"
             (startingMsg ("ai-agent-issue-undefined-" ++ toString 10)),
           RawAction.startContainer "undefined" "undefined" "undefined"] } ∧
    handleIssueTriggeredUntyped c2Sm (pushIssueArg "o" "r" 1 "t2" "b2" "u" "alice")
        (JsVal.num 9) (some "c1") 10 =
      { registeredKey := none
        actions := [RawAction.postComment "o" "r" (toString 1) alreadyHandledMsg] } := by
  have h := poll_duplicate_not_rejected c2Sm "o" "r" 1 "t2" "b2" "u" "alice"
    "@ai-agent" "c1" (some "c1") 9 10 (by decide) (by decide) (by decide)
  exact ⟨h.2.2, h.2.1⟩

/-- C9: `updateIssueStatus` on a present key refreshes `lastHeartbeat` to the
current time for every status value (in particular `error`), so the updated unit
is not classified as stale again before the 5-minute heartbeat timeout elapses. -/
theorem updateIssueStatus_heartbeat :
    ∀ (s : StateManager) (o r : String) (n : Nat) (st : ActiveIssueStatus)
      (err : Option String) (now : Nat),
      s.isIssueActive o r n = true →
      ∃ i', (s.updateIssueStatus o r n st err now).getIssue o r n = some i' ∧
        i'.lastHeartbeat = some now ∧ i'.status = st ∧
        ∀ now', now' - now ≤ 5 * 60 * 1000 →
          i' ∉ (s.updateIssueStatus o r n st err now).getStaleIssues now' (5 * 60 * 1000) := by
  intro s o r n st err now h
  obtain ⟨i, hi⟩ := Option.isSome_iff_exists.mp (by simpa [StateManager.isIssueActive] using h)
  have hi' : mapGet s.activeIssues (getIssueKey o r n) = some i := hi
  have hget : (s.updateIssueStatus o r n st err now).getIssue o r n =
      some { i with
             status := st,
             lastHeartbeat := some now,
             error := (match err with
                       | some e => if e = "" then i.error else some e
                       | none => i.error) } := by
    simp only [StateManager.updateIssueStatus, StateManager.getIssue, hi']
    exact mapGet_mapSet_self s.activeIssues (getIssueKey o r n) _
  refine ⟨_, hget, rfl, rfl, ?_⟩
  intro now' hle hmem
  have hpred := List.of_mem_filter hmem
  simp only [ActiveIssue.isStale, decide_eq_true_eq] at hpred
  omega

theorem updateIssueStatus_heartbeat_witness :
    ∃ i', (((emptyState 3).registerIssue
        { repoOwner := "o", repoName := "r", issueNumber := 1, issueTitle := "t",
          issueBody := "b", containerId := "c0", containerName := "n",
          status := ActiveIssueStatus.developing, branchName := "bn", startedAt := 0,
          lastHeartbeat := none, prNumber := none,
          error := none }).updateIssueStatus "o" "r" 1 ActiveIssueStatus.error
          (some "boom") 100).getIssue "o" "r" 1 = some i' ∧
      i'.lastHeartbeat = some 100 ∧ i'.status = ActiveIssueStatus.error ∧
      ∀ now', now' - 100 ≤ 5 * 60 * 1000 →
        i' ∉ (((emptyState 3).registerIssue
          { repoOwner := "o", repoName := "r", issueNumber := 1, issueTitle := "t",
            issueBody := "b", containerId := "c0", containerName := "n",
            status := ActiveIssueStatus.developing, branchName := "bn", startedAt := 0,
            lastHeartbeat := none, prNumber := none,
            error := none }).updateIssueStatus "o" "r" 1 ActiveIssueStatus.error
            (some "boom") 100).getStaleIssues now' (5 * 60 * 1000) :=
  updateIssueStatus_heartbeat _ "o" "r" 1 ActiveIssueStatus.error (some "boom") 100
    (by decide)

/-- C10: `registerIssue` is an unconditional upsert over the case-sensitive
composite key: re-registering an occupied key silently replaces the stored unit
without growing the registry, while keys differing only in the letter case of
owner or repo address two distinct live entries. -/
theorem registerIssue_upsert_case_sensitive :
    (∀ (s : StateManager) (i j : ActiveIssue),
      getIssueKey i.repoOwner i.repoName i.issueNumber =
        getIssueKey j.repoOwner j.repoName j.issueNumber →
      ((s.registerIssue i).registerIssue j).activeIssues.length =
        (s.registerIssue i).activeIssues.length ∧
      ((s.registerIssue i).registerIssue j).getIssue j.repoOwner j.repoName j.issueNumber =
        some j) ∧
    (∀ (s : StateManager) (i j : ActiveIssue),
      i.repoName = j.repoName → i.issueNumber = j.issueNumber →
      i.repoOwner ≠ j.repoOwner →
      ((s.registerIssue i).registerIssue j).getIssue i.repoOwner i.repoName i.issueNumber =
        some i ∧
      ((s.registerIssue i).registerIssue j).getIssue j.repoOwner j.repoName j.issueNumber =
        some j) ∧
    (∀ (s : StateManager) (i j : ActiveIssue),
      i.repoOwner = j.repoOwner → i.issueNumber = j.issueNumber →
      i.repoName ≠ j.repoName →
      ((s.registerIssue i).registerIssue j).getIssue i.repoOwner i.repoName i.issueNumber =
        some i ∧
      ((s.registerIssue i).registerIssue j).getIssue j.repoOwner j.repoName j.issueNumber =
        some j) := by
  refine ⟨?_, ?_, ?_⟩
  · intro s i j hkey
    constructor
    · have : (mapGet (s.registerIssue i).activeIssues
          (getIssueKey j.repoOwner j.repoName j.issueNumber)).isSome := by
        simp only [StateManager.registerIssue, ← hkey]
        rw [mapGet_mapSet_self]
        rfl
      exact length_mapSet_of_get_some _ _ _ this
    · simp only [StateManager.registerIssue, StateManager.getIssue]
      exact mapGet_mapSet_self _ _ _
  · intro s i j hr hn ho
    have hkey : getIssueKey j.repoOwner j.repoName j.issueNumber ≠
        getIssueKey i.repoOwner i.repoName i.issueNumber := by
      rw [hr, hn]
      intro h
      exact ho (getIssueKey_owner_inj j.repoOwner i.repoOwner j.repoName j.issueNumber h).symm
    constructor
    · simp only [StateManager.registerIssue, StateManager.getIssue]
      rw [mapGet_mapSet_ne _ _ _ _ hkey, mapGet_mapSet_self]
    · simp only [StateManager.registerIssue, StateManager.getIssue]
      exact mapGet_mapSet_self _ _ _
  · intro s i j ho hn hr
    have hkey : getIssueKey j.repoOwner j.repoName j.issueNumber ≠
        getIssueKey i.repoOwner i.repoName i.issueNumber := by
      rw [ho, hn]
      intro h
      exact hr (getIssueKey_repo_inj j.repoOwner j.repoName i.repoName j.issueNumber h).symm
    constructor
    · simp only [StateManager.registerIssue, StateManager.getIssue]
      rw [mapGet_mapSet_ne _ _ _ _ hkey, mapGet_mapSet_self]
    · simp only [StateManager.registerIssue, StateManager.getIssue]
      exact mapGet_mapSet_self _ _ _

theorem registerIssue_upsert_case_sensitive_witness :
    (((emptyState 5).registerIssue
        { repoOwner := "Foo", repoName := "bar", issueNumber := 1, issueTitle := "t",
          issueBody := "b", containerId := "c1", containerName := "n1",
          status := ActiveIssueStatus.starting, branchName := "b1", startedAt := 0,
          lastHeartbeat := none, prNumber := none, error := none }).registerIssue
        { repoOwner := "foo", repoName := "bar", issueNumber := 1, issueTitle := "t",
          issueBody := "b", containerId := "c2", containerName := "n2",
          status := ActiveIssueStatus.starting, branchName := "b2", startedAt := 0,
          lastHeartbeat := none, prNumber := none, error := none }).getIssue
        "Foo" "bar" 1 =
      some { repoOwner := "Foo", repoName := "bar", issueNumber := 1, issueTitle := "t",
             issueBody := "b", containerId := "c1", containerName := "n1",
             status := ActiveIssueStatus.starting, branchName := "b1", startedAt := 0,
             lastHeartbeat := none, prNumber := none, error := none } :=
  (registerIssue_upsert_case_sensitive.2.1 (emptyState 5)
    { repoOwner := "Foo", repoName := "bar", issueNumber := 1, issueTitle := "t",
      issueBody := "b", containerId := "c1", containerName := "n1",
      status := ActiveIssueStatus.starting, branchName := "b1", startedAt := 0,
      lastHeartbeat := none, prNumber := none, error := none }
    { repoOwner := "foo", repoName := "bar", issueNumber := 1, issueTitle := "t",
      issueBody := "b", containerId := "c2", containerName := "n2",
      status := ActiveIssueStatus.starting, branchName := "b2", startedAt := 0,
      lastHeartbeat := none, prNumber := none, error := none }
    rfl rfl (by decide)).1

/-- C5 (code bug): the status endpoint accepts and discards every update — one
whose container id matches the registered unit of `c5State` leaves that unit's
status and heartbeat untouched — although the spec (and the uncalled
`updateIssueByContainerId`, evaluated here on the same input) prescribes
refreshing heartbeat and status for the matching unit. Unknown container ids
are likewise accepted and discarded with no error. -/
theorem statusRoute_discards_all_updates :
    (∀ (s : StateManager) (u : StatusUpdate), apiStatusRoute s u = (s, true)) ∧
    ((apiStatusRoute c5State c5Update).1.getIssueByContainerId "c1").map
        (fun i => (i.status, i.lastHeartbeat)) =
      some (ActiveIssueStatus.starting, none) ∧
    ((c5State.updateIssueByContainerId c5Update.container_id c5Update.status none
        c5Update.timestamp).getIssueByContainerId "c1").map
        (fun i => (i.status, i.lastHeartbeat)) =
      some (ActiveIssueStatus.developing, some 42) :=
  ⟨fun _ _ => rfl, by decide, by decide⟩

/-- C8: the rate budget gates every poll cycle: the check skips exactly when the
rate-limit request succeeded with remaining quota strictly below 10 percent of
the limit (`remaining < limit * 0.1`, i.e. `10 * remaining < limit`); a skip
drops the entire cycle for all repositories, a failed budget check is fail-open
and the cycle proceeds over the enabled repositories. -/
theorem rateBudget_gates_cycle :
    (∀ rl : RateLimit, checkRateLimit (some rl) = false ↔ 10 * rl.remaining < rl.limit) ∧
    checkRateLimit none = true ∧
    (∀ (rate : Option RateLimit) (repos : List (RepoConfig × RepoCycleInput))
        (st : PollState),
      pollAll rate repos st =
        if checkRateLimit rate then runRepos (repos.filter (fun p => p.1.enabled)) st
        else (st, [])) := by
  refine ⟨?_, rfl, ?_⟩
  · intro rl
    unfold checkRateLimit
    rw [Bool.not_eq_false', decide_eq_true_eq]
    rw [mul_one_div, lt_div_iff₀ (by norm_num : (0 : ℚ) < 10)]
    constructor
    · intro h
      have h' : ((10 * rl.remaining : ℕ) : ℚ) < ((rl.limit : ℕ) : ℚ) := by push_cast; linarith
      exact_mod_cast h'
    · intro h
      have h' : ((10 * rl.remaining : ℕ) : ℚ) < ((rl.limit : ℕ) : ℚ) := by exact_mod_cast h
      push_cast at h'
      linarith
  · intro rate repos st
    unfold pollAll
    cases h : checkRateLimit rate with
    | false => simp [h]
    | true => simp [h]

theorem mapGet_eq_none_of_not_mem {κ : Type u} {α : Type v} [DecidableEq κ]
    {m : List (κ × α)} {k : κ} (h : k ∉ m.map Prod.fst) : mapGet m k = none := by
  induction m with
  | nil => rfl
  | cons p rest ih =>
    simp only [List.map_cons, List.mem_cons, not_or] at h
    simp only [mapGet]
    rw [if_neg (fun he => h.1 he.symm), ih h.2]

theorem mapGet_of_mem_nodup {κ : Type u} {α : Type v} [DecidableEq κ]
    {m : List (κ × α)} {k : κ} {v : α} (hnd : (m.map Prod.fst).Nodup)
    (hmem : (k, v) ∈ m) : mapGet m k = some v := by
  induction m with
  | nil => simp at hmem
  | cons p rest ih =>
    simp only [List.map_cons, List.nodup_cons] at hnd
    rcases List.mem_cons.mp hmem with h | h
    · subst h
      simp [mapGet]
    · have hk : p.1 ≠ k := by
        intro he
        exact hnd.1 (he ▸ (List.mem_map.mpr ⟨(k, v), h, rfl⟩))
      simp only [mapGet, if_neg hk]
      exact ih hnd.2 h

theorem mem_mapDelete {κ : Type u} {α : Type v} [DecidableEq κ]
    {m : List (κ × α)} {k : κ} {p : κ × α} (h : p ∈ mapDelete m k) : p ∈ m := by
  induction m with
  | nil => simp [mapDelete] at h
  | cons q rest ih =>
    by_cases hq : q.1 = k
    · simp only [mapDelete, hq, if_true] at h
      exact List.mem_cons_of_mem _ h
    · simp only [mapDelete, hq, if_false] at h
      rcases List.mem_cons.mp h with h | h
      · exact h ▸ List.mem_cons_self _ _
      · exact List.mem_cons_of_mem _ (ih h)

theorem not_mem_keys_mapDelete {κ : Type u} {α : Type v} [DecidableEq κ]
    {m : List (κ × α)} {k : κ} (hnd : (m.map Prod.fst).Nodup) :
    k ∉ (mapDelete m k).map Prod.fst := by
  induction m with
  | nil => simp [mapDelete]
  | cons p rest ih =>
    simp only [List.map_cons, List.nodup_cons] at hnd
    by_cases hp : p.1 = k
    · simp only [mapDelete, hp, if_true]
      exact hp ▸ hnd.1
    · simp only [mapDelete, hp, if_false, List.map_cons, List.mem_cons, not_or]
      exact ⟨fun he => hp he.symm, ih hnd.2⟩

theorem mapGet_mapDelete_self {κ : Type u} {α : Type v} [DecidableEq κ]
    {m : List (κ × α)} {k : κ} (hnd : (m.map Prod.fst).Nodup) :
    mapGet (mapDelete m k) k = none :=
  mapGet_eq_none_of_not_mem (not_mem_keys_mapDelete hnd)

/-- C7: when closure of a correlated PR is observed by the poller (and the
container removal call succeeds), the correlated unit is removed from the
registry, a removal request for its container is issued, and the PR's known-PR
and review-watermark entries are deleted in the same step, leaving no residual
correlation entry that references the unit — for every unit status, terminal
ones included. -/
theorem prClosed_teardown :
    ∀ (sys : SystemState) (repoKey : String) (p : Nat) (u : ActiveIssue),
      sys.sm.WF → sys.poll.WF →
      sys.sm.getAllActive.find? (fun i => i.prNumber = some p) = some u →
      u.containerId ≠ "" →
      (observePRClosed sys repoKey p true).1.sm.getIssue u.repoOwner u.repoName
          u.issueNumber = none ∧
      u ∉ (observePRClosed sys repoKey p true).1.sm.getAllActive ∧
      Action.removeContainer u.containerId ∈ (observePRClosed sys repoKey p true).2 ∧
      mapGet (observePRClosed sys repoKey p true).1.poll.knownReviews
        (prKeyOf repoKey p) = none ∧
      prKeyOf repoKey p ∉ (observePRClosed sys repoKey p true).1.poll.knownPRs := by
  intro sys repoKey p u hWF hPWF hfind hcid
  have hr : handlePRClosed sys.sm p true =
      { state := sys.sm.removeIssue u.repoOwner u.repoName u.issueNumber,
        actions := [Action.removeContainer u.containerId,
                    Action.postComment u.repoOwner u.repoName u.issueNumber
                      (prClosedMsg p)] } := by
    unfold handlePRClosed
    rw [hfind]
    simp [hcid]
  have hobs : observePRClosed sys repoKey p true =
      ({ sm := sys.sm.removeIssue u.repoOwner u.repoName u.issueNumber,
         poll := { sys.poll with
                   knownPRs := setDelete sys.poll.knownPRs (prKeyOf repoKey p),
                   knownReviews := mapDelete sys.poll.knownReviews (prKeyOf repoKey p) } },
       [Action.removeContainer u.containerId,
        Action.postComment u.repoOwner u.repoName u.issueNumber (prClosedMsg p)]) := by
    unfold observePRClosed
    rw [hr]
  rw [hobs]
  refine ⟨?_, ?_, ?_, ?_, ?_⟩
  · exact mapGet_mapDelete_self hWF.2
  · intro hmem
    obtain ⟨q, hq, hq2⟩ := List.mem_map.mp hmem
    have hqm : q ∈ sys.sm.activeIssues := mem_mapDelete hq
    have hk : q.1 = getIssueKey u.repoOwner u.repoName u.issueNumber := by
      have := hWF.1 q hqm
      rw [this, hq2]
    have : q.1 ∈ (mapDelete sys.sm.activeIssues
        (getIssueKey u.repoOwner u.repoName u.issueNumber)).map Prod.fst :=
      List.mem_map.mpr ⟨q, hq, rfl⟩
    rw [hk] at this
    exact not_mem_keys_mapDelete hWF.2 this
  · simp
  · exact mapGet_mapDelete_self hPWF.2.2.2
  · intro hmem
    have := (List.Nodup.mem_erase_iff hPWF.2.2.1).mp hmem
    exact this.1 rfl

theorem prClosed_teardown_witness :
    (observePRClosed c7Sys "o/r" 7 true).1.sm.getIssue "o" "r" 1 = none ∧
    c7Unit ∉ (observePRClosed c7Sys "o/r" 7 true).1.sm.getAllActive ∧
    Action.removeContainer "c1" ∈ (observePRClosed c7Sys "o/r" 7 true).2 ∧
    mapGet (observePRClosed c7Sys "o/r" 7 true).1.poll.knownReviews
      (prKeyOf "o/r" 7) = none ∧
    prKeyOf "o/r" 7 ∉ (observePRClosed c7Sys "o/r" 7 true).1.poll.knownPRs :=
  prClosed_teardown c7Sys "o/r" 7 c7Unit (by refine ⟨?_, ?_⟩ <;> decide)
    (by refine ⟨?_, ?_, ?_, ?_⟩ <;> decide) (by decide) (by decide)

theorem getIssue_updateIssueStatus_ne (s : StateManager) (o r : String) (n : Nat)
    (o' r' : String) (n' : Nat) (st : ActiveIssueStatus) (err : Option String) (now : Nat)
    (h : getIssueKey o r n ≠ getIssueKey o' r' n') :
    (s.updateIssueStatus o r n st err now).getIssue o' r' n' = s.getIssue o' r' n' := by
  cases hg : mapGet s.activeIssues (getIssueKey o r n) with
  | none => simp [StateManager.updateIssueStatus, StateManager.getIssue, hg]
  | some i =>
    simp only [StateManager.updateIssueStatus, StateManager.getIssue, hg]
    exact mapGet_mapSet_ne _ _ _ _ h

theorem notifies_eq_false_of_key_ne (xo xr : String) (xn : Nat) (o r : String) (n : Nat)
    (msg : String) (h : getIssueKey xo xr xn ≠ getIssueKey o r n) :
    notifiesIssue (Action.postComment xo xr xn msg) o r n = false := by
  simp only [notifiesIssue]
  apply decide_eq_false
  intro hc
  exact h (by rw [hc.1, hc.2.1, hc.2.2])

theorem healthStep_preserve (now : Nat) (cs : String → Option String) (lo : String → Bool)
    (acc : StateManager × List Action) (x : ActiveIssue) (o r : String) (n : Nat)
    (h : getIssueKey x.repoOwner x.repoName x.issueNumber ≠ getIssueKey o r n) :
    ((healthStep now cs lo acc x).1.getIssue o r n = acc.1.getIssue o r n) ∧
    ((healthStep now cs lo acc x).2.filter (fun a => notifiesIssue a o r n) =
      acc.2.filter (fun a => notifiesIssue a o r n)) := by
  unfold healthStep
  cases hcs : cs x.containerId with
  | none => exact ⟨rfl, rfl⟩
  | some cst =>
    simp only []
    by_cases ht : cst = "exited" ∨ cst = "dead"
    · rw [if_pos ht]
      by_cases hl : lo x.containerId = true
      · rw [if_pos hl]
        refine ⟨getIssue_updateIssueStatus_ne _ _ _ _ _ _ _ _ _ _ h, ?_⟩
        rw [List.filter_append]
        simp [notifies_eq_false_of_key_ne _ _ _ _ _ _ _ h]
      · rw [if_neg hl]
        exact ⟨getIssue_updateIssueStatus_ne _ _ _ _ _ _ _ _ _ _ h, rfl⟩
    · rw [if_neg ht]
      exact ⟨rfl, rfl⟩

theorem healthFold_preserve (now : Nat) (cs : String → Option String) (lo : String → Bool)
    (l : List ActiveIssue) (o r : String) (n : Nat)
    (hl : ∀ x ∈ l, getIssueKey x.repoOwner x.repoName x.issueNumber ≠ getIssueKey o r n) :
    ∀ acc : StateManager × List Action,
      ((l.foldl (healthStep now cs lo) acc).1.getIssue o r n = acc.1.getIssue o r n) ∧
      ((l.foldl (healthStep now cs lo) acc).2.filter (fun a => notifiesIssue a o r n) =
        acc.2.filter (fun a => notifiesIssue a o r n)) := by
  induction l with
  | nil => intro acc; exact ⟨rfl, rfl⟩
  | cons x rest ih =>
    intro acc
    have hx := healthStep_preserve now cs lo acc x o r n (hl x (List.mem_cons_self _ _))
    have hr := ih (fun y hy => hl y (List.mem_cons_of_mem _ hy)) (healthStep now cs lo acc x)
    exact ⟨hr.1.trans hx.1, hr.2.trans hx.2⟩

theorem healthStep_hit (now : Nat) (cs : String → Option String) (lo : String → Bool)
    (acc : StateManager × List Action) (u : ActiveIssue) (cst : String)
    (hcs : cs u.containerId = some cst) (ht : cst = "exited" ∨ cst = "dead")
    (hlo : lo u.containerId = true) (hne : containerDeadMsg cst ≠ "")
    (hacc : acc.1.getIssue u.repoOwner u.repoName u.issueNumber = some u) :
    ((healthStep now cs lo acc u).1.getIssue u.repoOwner u.repoName u.issueNumber =
      some { u with
             status := ActiveIssueStatus.error,
             lastHeartbeat := some now,
             error := some (containerDeadMsg cst) }) ∧
    (healthStep now cs lo acc u).2 =
      acc.2 ++ [Action.postComment u.repoOwner u.repoName u.issueNumber
        (crashNotifyMsg cst)] := by
  have hacc' : mapGet acc.1.activeIssues
      (getIssueKey u.repoOwner u.repoName u.issueNumber) = some u := hacc
  unfold healthStep
  simp only [hcs]
  rw [if_pos ht, if_pos hlo]
  constructor
  · simp only [StateManager.updateIssueStatus, StateManager.getIssue, hacc']
    rw [mapGet_mapSet_self, if_neg hne]
  · rfl

/-- C6: a unit with no recorded heartbeat whose start time is beyond the
10-minute grace period is picked up by the health check; when the runtime
reports its container `exited` or `dead` (and the log fetch succeeds), the
unit's status is forced to `error` carrying the non-empty diagnostic message,
and exactly one notification comment for that unit is issued. -/
theorem healthCheck_forces_error_and_notifies_once :
    ∀ (s : StateManager) (now : Nat) (cs : String → Option String) (lo : String → Bool)
      (u : ActiveIssue) (cst : String),
      s.WF →
      u ∈ s.getAllActive →
      u.lastHeartbeat = none →
      10 * 60 * 1000 < now - u.startedAt →
      cs u.containerId = some cst →
      (cst = "exited" ∨ cst = "dead") →
      lo u.containerId = true →
      ((healthCheck s now cs lo).1.getIssue u.repoOwner u.repoName u.issueNumber =
        some { u with
               status := ActiveIssueStatus.error,
               lastHeartbeat := some now,
               error := some (containerDeadMsg cst) }) ∧
      containerDeadMsg cst ≠ "" ∧
      ((healthCheck s now cs lo).2.filter
        (fun a => notifiesIssue a u.repoOwner u.repoName u.issueNumber)).length = 1 := by
  intro s now cs lo u cst hWF hmem hhb hgrace hcs ht hlo
  have hnemsg : containerDeadMsg cst ≠ "" := by
    rcases ht with h | h <;> subst h <;> decide
  have hstale : u ∈ s.getStaleIssues now (5 * 60 * 1000) := by
    apply List.mem_filter.mpr
    refine ⟨hmem, ?_⟩
    simp only [ActiveIssue.isStale, hhb, decide_eq_true_eq]
    exact hgrace
  have hsu : s.getIssue u.repoOwner u.repoName u.issueNumber = some u := by
    obtain ⟨⟨qk, qv⟩, hq, hq2⟩ := List.mem_map.mp hmem
    dsimp at hq2
    subst hq2
    have hk := hWF.1 _ hq
    dsimp at hk
    rw [hk] at hq
    exact mapGet_of_mem_nodup hWF.2 hq
  have h1 : (s.getAllActive.map
      (fun i => getIssueKey i.repoOwner i.repoName i.issueNumber)).Nodup := by
    have he : s.getAllActive.map
        (fun i => getIssueKey i.repoOwner i.repoName i.issueNumber) =
        s.activeIssues.map Prod.fst := by
      rw [StateManager.getAllActive, List.map_map]
      apply List.map_congr_left
      intro p hp
      exact (hWF.1 p hp).symm
    rw [he]
    exact hWF.2
  have h2 : ((s.getStaleIssues now (5 * 60 * 1000)).map
      (fun i => getIssueKey i.repoOwner i.repoName i.issueNumber)).Nodup :=
    List.Nodup.sublist (List.Sublist.map _ (List.filter_sublist _)) h1
  obtain ⟨l₁, l₂, hsplit⟩ := List.append_of_mem hstale
  rw [hsplit, List.map_append, List.map_cons] at h2
  have h3 := List.nodup_middle.mp h2
  have h4 := (List.nodup_cons.mp h3).1
  have hne₁ : ∀ x ∈ l₁, getIssueKey x.repoOwner x.repoName x.issueNumber ≠
      getIssueKey u.repoOwner u.repoName u.issueNumber := by
    intro x hx he
    exact h4 (List.mem_append_left _ (List.mem_map.mpr ⟨x, hx, he⟩))
  have hne₂ : ∀ x ∈ l₂, getIssueKey x.repoOwner x.repoName x.issueNumber ≠
      getIssueKey u.repoOwner u.repoName u.issueNumber := by
    intro x hx he
    exact h4 (List.mem_append_right _ (List.mem_map.mpr ⟨x, hx, he⟩))
  have hfold : healthCheck s now cs lo =
      l₂.foldl (healthStep now cs lo)
        (healthStep now cs lo (l₁.foldl (healthStep now cs lo) (s, [])) u) := by
    unfold healthCheck
    rw [hsplit, List.foldl_append, List.foldl_cons]
  have hacc₁ := healthFold_preserve now cs lo l₁ u.repoOwner u.repoName u.issueNumber
    hne₁ (s, [])
  have hhit := healthStep_hit now cs lo (l₁.foldl (healthStep now cs lo) (s, [])) u cst
    hcs ht hlo hnemsg (hacc₁.1.trans hsu)
  have hacc₂ := healthFold_preserve now cs lo l₂ u.repoOwner u.repoName u.issueNumber
    hne₂ (healthStep now cs lo (l₁.foldl (healthStep now cs lo) (s, [])) u)
  rw [hfold]
  refine ⟨hacc₂.1.trans hhit.1, hnemsg, ?_⟩
  rw [hacc₂.2, hhit.2, List.filter_append, hacc₁.2]
  simp [notifiesIssue]

theorem healthCheck_forces_error_witness :
    ((healthCheck c6State 660000 (fun c => if c = "c1" then some "exited" else none)
        (fun _ => true)).1.getIssue "o" "r" 1 =
      some { c6Unit with
             status := ActiveIssueStatus.error,
             lastHeartbeat := some 660000,
             error := some (containerDeadMsg "exited") }) ∧
    containerDeadMsg "exited" ≠ "" ∧
    ((healthCheck c6State 660000 (fun c => if c = "c1" then some "exited" else none)
        (fun _ => true)).2.filter (fun a => notifiesIssue a "o" "r" 1)).length = 1 :=
  healthCheck_forces_error_and_notifies_once c6State 660000
    (fun c => if c = "c1" then some "exited" else none) (fun _ => true) c6Unit "exited"
    (by refine ⟨?_, ?_⟩ <;> decide) (by decide) rfl (by decide) (by decide)
    (Or.inl rfl) rfl

theorem mapGet_mapDelete_ne {κ : Type u} {α : Type v} [DecidableEq κ]
    {m : List (κ × α)} {k k' : κ} (h : k' ≠ k) :
    mapGet (mapDelete m k) k' = mapGet m k' := by
  induction m with
  | nil => rfl
  | cons p rest ih =>
    obtain ⟨pk, pv⟩ := p
    by_cases hp : pk = k
    · subst hp
      have hd : mapDelete ((pk, pv) :: rest) pk = rest := by simp [mapDelete]
      rw [hd]
      simp only [mapGet]
      rw [if_neg (fun he : pk = k' => h he.symm)]
    · simp only [mapDelete, if_neg hp, mapGet]
      by_cases hp' : pk = k'
      · simp [hp']
      · simp [hp', ih]

theorem mapDelete_sublist {κ : Type u} {α : Type v} [DecidableEq κ]
    (m : List (κ × α)) (k : κ) : (mapDelete m k).Sublist m := by
  induction m with
  | nil => simp [mapDelete]
  | cons p rest ih =>
    by_cases hp : p.1 = k
    · simp only [mapDelete, hp, if_true]
      exact List.sublist_cons_self _ _
    · simp only [mapDelete, hp, if_false]
      exact List.Sublist.cons₂ _ ih

theorem mem_keys_mapSet {κ : Type u} {α : Type v} [DecidableEq κ]
    {m : List (κ × α)} {k a : κ} {v : α}
    (h : a ∈ (mapSet m k v).map Prod.fst) : a ∈ m.map Prod.fst ∨ a = k := by
  induction m with
  | nil => exact Or.inr (by simpa [mapSet] using h)
  | cons p rest ih =>
    by_cases hp : p.1 = k
    · simp only [mapSet, hp, if_true, List.map_cons, List.mem_cons] at h
      rcases h with h | h
      · exact Or.inr h
      · refine Or.inl ?_
        simp only [List.map_cons, List.mem_cons]
        exact Or.inr h
    · simp only [mapSet, hp, if_false, List.map_cons, List.mem_cons] at h
      rcases h with h | h
      · refine Or.inl ?_
        simp only [List.map_cons, List.mem_cons]
        exact Or.inl h
      · rcases ih h with h' | h'
        · refine Or.inl ?_
          simp only [List.map_cons, List.mem_cons]
          exact Or.inr h'
        · exact Or.inr h'

theorem keys_mapSet_nodup {κ : Type u} {α : Type v} [DecidableEq κ]
    {m : List (κ × α)} {k : κ} {v : α} (h : (m.map Prod.fst).Nodup) :
    ((mapSet m k v).map Prod.fst).Nodup := by
  induction m with
  | nil => simp [mapSet]
  | cons p rest ih =>
    simp only [List.map_cons, List.nodup_cons] at h
    by_cases hp : p.1 = k
    · simp only [mapSet, hp, if_true, List.map_cons, List.nodup_cons]
      exact ⟨hp ▸ h.1, h.2⟩
    · simp only [mapSet, hp, if_false, List.map_cons, List.nodup_cons]
      refine ⟨fun hc => ?_, ih h.2⟩
      rcases mem_keys_mapSet hc with h' | h'
      · exact h.1 h'
      · exact hp h'

theorem setAdd_nodup {s : List String} {k : String} (h : s.Nodup) : (setAdd s k).Nodup := by
  unfold setAdd
  by_cases hk : k ∈ s
  · simp [hk, h]
  · simp only [hk, if_false]
    exact List.Nodup.append h (List.nodup_singleton k)
      (by intro a ha hb; simp at hb; exact hk (hb ▸ ha))

theorem mem_setAdd_ne {s : List String} {k k' : String} (h : k' ≠ k) :
    k' ∈ setAdd s k ↔ k' ∈ s := by
  unfold setAdd
  by_cases hk : k ∈ s
  · simp [hk]
  · simp [hk, h]

theorem processReviews_count_closed (prNumber lastReviewId : Nat)
    (handlerFails : Nat → Bool) (l : List ReviewData) (n : Nat) :
    ((processReviews prNumber lastReviewId handlerFails l).2).count
      (PollEvent.prClosed n) = 0 := by
  induction l with
  | nil => rfl
  | cons rv rest ih =>
    unfold processReviews
    by_cases h1 : rv.id ≤ lastReviewId
    · simpa [h1] using ih
    · by_cases h2 : isBotUser rv.userLogin = true
      · simpa [h1, h2] using ih
      · by_cases h3 : rv.state = "CHANGES_REQUESTED" ∨ rv.state = "COMMENTED"
        · by_cases h4 : handlerFails rv.id = true
          · simp [h1, h2, h3, h4]
          · simp only [h1, h2, h3, h4, if_neg, if_pos, if_false, Bool.false_eq_true]
            simp only [List.count_cons]
            rw [ih]
            simp
        · simpa [h1, h2, h3] using ih

theorem pollPRReviews_state_char (repoKey : String) (st : PollState) (pr : PRData)
    (res : Option (List ReviewData)) (hf : Nat → Bool) :
    (pollPRReviews repoKey st pr res hf).1 = st ∨
    ∃ reviews, res = some reviews ∧ reviews ≠ [] ∧
      (pollPRReviews repoKey st pr res hf).1 =
        { st with knownReviews :=
            mapSet st.knownReviews (prKeyOf repoKey pr.number) (maxReviewId reviews) } := by
  cases res with
  | none => exact Or.inl rfl
  | some reviews =>
    by_cases h1 : (processReviews pr.number
        ((mapGet st.knownReviews (prKeyOf repoKey pr.number)).getD 0) hf reviews).1 = true
    · refine Or.inl ?_
      simp only [pollPRReviews, h1, if_true]
    · by_cases h2 : reviews.isEmpty = true
      · refine Or.inl ?_
        simp only [pollPRReviews, h1, h2, Bool.false_eq_true, if_false, if_true]
      · refine Or.inr ⟨reviews, rfl, by simpa using h2, ?_⟩
        simp only [pollPRReviews, h1, h2, Bool.false_eq_true, if_false]

theorem pollPRReviews_events_count_closed (repoKey : String) (st : PollState) (pr : PRData)
    (res : Option (List ReviewData)) (hf : Nat → Bool) (n : Nat) :
    ((pollPRReviews repoKey st pr res hf).2).count (PollEvent.prClosed n) = 0 := by
  unfold pollPRReviews
  cases res with
  | none => rfl
  | some reviews =>
    by_cases h1 : (processReviews pr.number
        ((mapGet st.knownReviews (prKeyOf repoKey pr.number)).getD 0) hf reviews).1 = true
    · simpa [h1] using processReviews_count_closed pr.number _ hf reviews n
    · by_cases h2 : reviews.isEmpty = true
      · simpa [h1, h2] using processReviews_count_closed pr.number _ hf reviews n
      · simpa [h1, h2] using processReviews_count_closed pr.number _ hf reviews n

theorem pollPRStep_preserve (repoKey : String) (rf : Nat → Option (List ReviewData))
    (rhf : Nat → Nat → Bool) (acc : PollState × List PollEvent) (q : PRData)
    (k : String) (n : Nat) (hk : prKeyOf repoKey q.number ≠ k) (hn : q.number ≠ n) :
    (mapGet (pollPRStep repoKey rf rhf acc q).1.knownReviews k =
      mapGet acc.1.knownReviews k) ∧
    ((k ∈ (pollPRStep repoKey rf rhf acc q).1.knownPRs) ↔ k ∈ acc.1.knownPRs) ∧
    ((pollPRStep repoKey rf rhf acc q).2.count (PollEvent.prClosed n) =
      acc.2.count (PollEvent.prClosed n)) := by
  by_cases hb : strStartsWith q.headRef "ai-agent-issue-" = true
  · have hr := pollPRReviews_state_char repoKey
      { lastIssueCheck := acc.1.lastIssueCheck, lastCommentCheck := acc.1.lastCommentCheck,
        knownPRs := setAdd acc.1.knownPRs (prKeyOf repoKey q.number),
        knownReviews := acc.1.knownReviews } q (rf q.number) (rhf q.number)
    have hrev : mapGet (pollPRReviews repoKey
        { lastIssueCheck := acc.1.lastIssueCheck, lastCommentCheck := acc.1.lastCommentCheck,
          knownPRs := setAdd acc.1.knownPRs (prKeyOf repoKey q.number),
          knownReviews := acc.1.knownReviews } q
        (rf q.number) (rhf q.number)).1.knownReviews k = mapGet acc.1.knownReviews k := by
      rcases hr with hc | ⟨rvs, _, _, hc⟩
      · rw [hc]
      · rw [hc]
        exact mapGet_mapSet_ne _ _ _ _ hk
    have hprs : (pollPRReviews repoKey
        { lastIssueCheck := acc.1.lastIssueCheck, lastCommentCheck := acc.1.lastCommentCheck,
          knownPRs := setAdd acc.1.knownPRs (prKeyOf repoKey q.number),
          knownReviews := acc.1.knownReviews } q
        (rf q.number) (rhf q.number)).1.knownPRs =
        setAdd acc.1.knownPRs (prKeyOf repoKey q.number) := by
      rcases hr with hc | ⟨rvs, _, _, hc⟩ <;> rw [hc]
    have hev := pollPRReviews_events_count_closed repoKey
      { lastIssueCheck := acc.1.lastIssueCheck, lastCommentCheck := acc.1.lastCommentCheck,
        knownPRs := setAdd acc.1.knownPRs (prKeyOf repoKey q.number),
        knownReviews := acc.1.knownReviews } q (rf q.number) (rhf q.number) n
    by_cases hcl : q.state = "closed"
    · simp only [pollPRStep, hb, Bool.not_true, Bool.false_eq_true, if_false, hcl, if_true]
      refine ⟨?_, ?_, ?_⟩
      · exact (mapGet_mapDelete_ne (fun he => hk he.symm)).trans hrev
      · refine Iff.trans (List.mem_erase_of_ne (fun he => hk he.symm)) ?_
        rw [hprs]
        exact mem_setAdd_ne (fun he => hk he.symm)
      · rw [List.count_append, List.count_append, hev]
        have hz : List.count (PollEvent.prClosed n) [PollEvent.prClosed q.number] = 0 := by
          rw [List.count_eq_zero]
          simp only [List.mem_singleton]
          intro he
          injection he with h'
          exact hn h'.symm
        rw [hz]
        omega
    · simp only [pollPRStep, hb, Bool.not_true, Bool.false_eq_true, if_false, hcl]
      refine ⟨hrev, ?_, ?_⟩
      · rw [hprs]
        exact mem_setAdd_ne (fun he => hk he.symm)
      · rw [List.count_append, hev]
        omega
  · simp only [pollPRStep, hb]
    exact ⟨rfl, Iff.rfl, rfl⟩

theorem pollPRStep_wf (repoKey : String) (rf : Nat → Option (List ReviewData))
    (rhf : Nat → Nat → Bool) (acc : PollState × List PollEvent) (q : PRData)
    (h3 : acc.1.knownPRs.Nodup) (h4 : (acc.1.knownReviews.map Prod.fst).Nodup) :
    (pollPRStep repoKey rf rhf acc q).1.knownPRs.Nodup ∧
    ((pollPRStep repoKey rf rhf acc q).1.knownReviews.map Prod.fst).Nodup := by
  by_cases hb : strStartsWith q.headRef "ai-agent-issue-" = true
  · have hr := pollPRReviews_state_char repoKey
      { acc.1 with knownPRs := setAdd acc.1.knownPRs (prKeyOf repoKey q.number) } q
      (rf q.number) (rhf q.number)
    have hprs : (pollPRReviews repoKey
        { acc.1 with knownPRs := setAdd acc.1.knownPRs (prKeyOf repoKey q.number) } q
        (rf q.number) (rhf q.number)).1.knownPRs.Nodup := by
      rcases hr with hc | ⟨rvs, _, _, hc⟩ <;> rw [hc] <;> exact setAdd_nodup h3
    have hrev : ((pollPRReviews repoKey
        { acc.1 with knownPRs := setAdd acc.1.knownPRs (prKeyOf repoKey q.number) } q
        (rf q.number) (rhf q.number)).1.knownReviews.map Prod.fst).Nodup := by
      rcases hr with hc | ⟨rvs, _, _, hc⟩
      · rw [hc]
        exact h4
      · rw [hc]
        exact keys_mapSet_nodup h4
    by_cases hcl : q.state = "closed"
    · simp only [pollPRStep, hb, Bool.not_true, Bool.false_eq_true, if_false, hcl, if_true]
      refine ⟨List.Nodup.erase _ hprs, ?_⟩
      exact List.Nodup.sublist (List.Sublist.map _ (mapDelete_sublist _ _)) hrev
    · simp only [pollPRStep, hb, Bool.not_true, Bool.false_eq_true, if_false, hcl]
      exact ⟨hprs, hrev⟩
  · simp only [pollPRStep, hb]
    exact ⟨h3, h4⟩

theorem pollPRStep_closed_hit (repoKey : String) (rf : Nat → Option (List ReviewData))
    (rhf : Nat → Nat → Bool) (acc : PollState × List PollEvent) (pr : PRData)
    (hb : strStartsWith pr.headRef "ai-agent-issue-" = true)
    (hcl : pr.state = "closed")
    (h3 : acc.1.knownPRs.Nodup) (h4 : (acc.1.knownReviews.map Prod.fst).Nodup) :
    (mapGet (pollPRStep repoKey rf rhf acc pr).1.knownReviews
      (prKeyOf repoKey pr.number) = none) ∧
    (prKeyOf repoKey pr.number ∉ (pollPRStep repoKey rf rhf acc pr).1.knownPRs) ∧
    ((pollPRStep repoKey rf rhf acc pr).2.count (PollEvent.prClosed pr.number) =
      acc.2.count (PollEvent.prClosed pr.number) + 1) := by
  have hr := pollPRReviews_state_char repoKey
    { acc.1 with knownPRs := setAdd acc.1.knownPRs (prKeyOf repoKey pr.number) } pr
    (rf pr.number) (rhf pr.number)
  have hprs : (pollPRReviews repoKey
      { acc.1 with knownPRs := setAdd acc.1.knownPRs (prKeyOf repoKey pr.number) } pr
      (rf pr.number) (rhf pr.number)).1.knownPRs.Nodup := by
    rcases hr with hc | ⟨rvs, _, _, hc⟩ <;> rw [hc] <;> exact setAdd_nodup h3
  have hrev : ((pollPRReviews repoKey
      { acc.1 with knownPRs := setAdd acc.1.knownPRs (prKeyOf repoKey pr.number) } pr
      (rf pr.number) (rhf pr.number)).1.knownReviews.map Prod.fst).Nodup := by
    rcases hr with hc | ⟨rvs, _, _, hc⟩
    · rw [hc]
      exact h4
    · rw [hc]
      exact keys_mapSet_nodup h4
  have hev := pollPRReviews_events_count_closed repoKey
    { acc.1 with knownPRs := setAdd acc.1.knownPRs (prKeyOf repoKey pr.number) } pr
    (rf pr.number) (rhf pr.number) pr.number
  simp only [pollPRStep, hb, Bool.not_true, Bool.false_eq_true, if_false, hcl, if_true]
  refine ⟨mapGet_mapDelete_self hrev, ?_, ?_⟩
  · intro hmem
    exact ((List.Nodup.mem_erase_iff hprs).mp hmem).1 rfl
  · rw [List.count_append, List.count_append, hev]
    simp

theorem prFold_preserve (repoKey : String) (rf : Nat → Option (List ReviewData))
    (rhf : Nat → Nat → Bool) (l : List PRData) (k : String) (n : Nat)
    (hl : ∀ q ∈ l, prKeyOf repoKey q.number ≠ k ∧ q.number ≠ n) :
    ∀ acc : PollState × List PollEvent,
      (mapGet (l.foldl (pollPRStep repoKey rf rhf) acc).1.knownReviews k =
        mapGet acc.1.knownReviews k) ∧
      ((k ∈ (l.foldl (pollPRStep repoKey rf rhf) acc).1.knownPRs) ↔
        k ∈ acc.1.knownPRs) ∧
      ((l.foldl (pollPRStep repoKey rf rhf) acc).2.count (PollEvent.prClosed n) =
        acc.2.count (PollEvent.prClosed n)) := by
  induction l with
  | nil => intro acc; exact ⟨rfl, Iff.rfl, rfl⟩
  | cons q rest ih =>
    intro acc
    have hq := hl q (List.mem_cons_self _ _)
    have hx := pollPRStep_preserve repoKey rf rhf acc q k n hq.1 hq.2
    have hr := ih (fun y hy => hl y (List.mem_cons_of_mem _ hy))
      (pollPRStep repoKey rf rhf acc q)
    exact ⟨hr.1.trans hx.1, hr.2.1.trans hx.2.1, hr.2.2.trans hx.2.2⟩

theorem prFold_wf (repoKey : String) (rf : Nat → Option (List ReviewData))
    (rhf : Nat → Nat → Bool) (l : List PRData) :
    ∀ acc : PollState × List PollEvent, acc.1.knownPRs.Nodup →
      (acc.1.knownReviews.map Prod.fst).Nodup →
      (l.foldl (pollPRStep repoKey rf rhf) acc).1.knownPRs.Nodup ∧
      ((l.foldl (pollPRStep repoKey rf rhf) acc).1.knownReviews.map Prod.fst).Nodup := by
  induction l with
  | nil => intro acc h3 h4; exact ⟨h3, h4⟩
  | cons q rest ih =>
    intro acc h3 h4
    have hx := pollPRStep_wf repoKey rf rhf acc q h3 h4
    exact ih (pollPRStep repoKey rf rhf acc q) hx.1 hx.2

/-- C4: when a poll cycle's PR scan sees a tracked agent PR (branch matching the
agent naming convention) reported closed, it emits exactly one closure event for
that PR and deletes both the known-PR entry and the last-seen-review watermark
entry for it. -/
theorem pollOurPRs_closure_once :
    ∀ (repoKey : String) (st : PollState) (prs : List PRData)
      (rf : Nat → Option (List ReviewData)) (rhf : Nat → Nat → Bool) (pr : PRData),
      st.WF →
      pr ∈ prs →
      strStartsWith pr.headRef "ai-agent-issue-" = true →
      pr.state = "closed" →
      (prs.map (fun q => prKeyOf repoKey q.number)).Nodup →
      ((pollOurPRs repoKey st (some prs) rf rhf).2.count
        (PollEvent.prClosed pr.number) = 1) ∧
      (mapGet (pollOurPRs repoKey st (some prs) rf rhf).1.knownReviews
        (prKeyOf repoKey pr.number) = none) ∧
      (prKeyOf repoKey pr.number ∉ (pollOurPRs repoKey st (some prs) rf rhf).1.knownPRs) := by
  intro repoKey st prs rf rhf pr hWF hmem hb hcl hnd
  obtain ⟨l₁, l₂, hsplit⟩ := List.append_of_mem hmem
  rw [hsplit, List.map_append, List.map_cons] at hnd
  have h3 := List.nodup_middle.mp hnd
  have h4 := (List.nodup_cons.mp h3).1
  have hl₁ : ∀ q ∈ l₁, prKeyOf repoKey q.number ≠ prKeyOf repoKey pr.number ∧
      q.number ≠ pr.number := by
    intro q hq
    have hkey : prKeyOf repoKey q.number ≠ prKeyOf repoKey pr.number := by
      intro he
      exact h4 (List.mem_append_left _ (List.mem_map.mpr ⟨q, hq, he⟩))
    exact ⟨hkey, fun he => hkey (by rw [he])⟩
  have hl₂ : ∀ q ∈ l₂, prKeyOf repoKey q.number ≠ prKeyOf repoKey pr.number ∧
      q.number ≠ pr.number := by
    intro q hq
    have hkey : prKeyOf repoKey q.number ≠ prKeyOf repoKey pr.number := by
      intro he
      exact h4 (List.mem_append_right _ (List.mem_map.mpr ⟨q, hq, he⟩))
    exact ⟨hkey, fun he => hkey (by rw [he])⟩
  have hfold : pollOurPRs repoKey st (some prs) rf rhf =
      l₂.foldl (pollPRStep repoKey rf rhf)
        (pollPRStep repoKey rf rhf
          (l₁.foldl (pollPRStep repoKey rf rhf) (st, [])) pr) := by
    show prs.foldl (pollPRStep repoKey rf rhf) (st, []) = _
    rw [hsplit, List.foldl_append, List.foldl_cons]
  have hacc₁p := prFold_preserve repoKey rf rhf l₁ (prKeyOf repoKey pr.number) pr.number
    hl₁ (st, [])
  have hacc₁w := prFold_wf repoKey rf rhf l₁ (st, []) hWF.2.2.1 hWF.2.2.2
  have hhit := pollPRStep_closed_hit repoKey rf rhf
    (l₁.foldl (pollPRStep repoKey rf rhf) (st, [])) pr hb hcl hacc₁w.1 hacc₁w.2
  have hacc₂ := prFold_preserve repoKey rf rhf l₂ (prKeyOf repoKey pr.number) pr.number
    hl₂ (pollPRStep repoKey rf rhf (l₁.foldl (pollPRStep repoKey rf rhf) (st, [])) pr)
  rw [hfold]
  refine ⟨?_, hacc₂.1.trans hhit.1, fun hm => hhit.2.1 (hacc₂.2.1.mp hm)⟩
  rw [hacc₂.2.2, hhit.2.2, hacc₁p.2.2]
  rfl

theorem pollOurPRs_closure_once_witness :
    ((pollOurPRs "o/r"
        { lastIssueCheck := [], lastCommentCheck := [],
          knownPRs := ["o/r#7"], knownReviews := [("o/r#7", 5)] }
        (some [{ number := 7, headRef := "ai-agent-issue-1-0", state := "closed" }])
        (fun _ => some []) (fun _ _ => false)).2.count (PollEvent.prClosed 7) = 1) ∧
    (mapGet (pollOurPRs "o/r"
        { lastIssueCheck := [], lastCommentCheck := [],
          knownPRs := ["o/r#7"], knownReviews := [("o/r#7", 5)] }
        (some [{ number := 7, headRef := "ai-agent-issue-1-0", state := "closed" }])
        (fun _ => some []) (fun _ _ => false)).1.knownReviews (prKeyOf "o/r" 7) = none) ∧
    (prKeyOf "o/r" 7 ∉ (pollOurPRs "o/r"
        { lastIssueCheck := [], lastCommentCheck := [],
          knownPRs := ["o/r#7"], knownReviews := [("o/r#7", 5)] }
        (some [{ number := 7, headRef := "ai-agent-issue-1-0", state := "closed" }])
        (fun _ => some []) (fun _ _ => false)).1.knownPRs) :=
  pollOurPRs_closure_once "o/r"
    { lastIssueCheck := [], lastCommentCheck := [],
      knownPRs := ["o/r#7"], knownReviews := [("o/r#7", 5)] }
    [{ number := 7, headRef := "ai-agent-issue-1-0", state := "closed" }]
    (fun _ => some []) (fun _ _ => false)
    { number := 7, headRef := "ai-agent-issue-1-0", state := "closed" }
    (by refine ⟨?_, ?_, ?_, ?_⟩ <;> decide) (by decide) (by decide) rfl (by decide)

theorem maxCommentId_cons (d : CommentData) (rest : List CommentData) :
    maxCommentId (d :: rest) = max d.id (maxCommentId rest) := rfl

theorem le_maxCommentId {cs : List CommentData} {c : CommentData} (h : c ∈ cs) :
    c.id ≤ maxCommentId cs := by
  induction cs with
  | nil => simp at h
  | cons d rest ih =>
    rcases List.mem_cons.mp h with h | h
    · rw [h, maxCommentId_cons]
      exact le_max_left _ _
    · rw [maxCommentId_cons]
      exact le_trans (ih h) (le_max_right _ _)

theorem maxReviewId_cons (d : ReviewData) (rest : List ReviewData) :
    maxReviewId (d :: rest) = max d.id (maxReviewId rest) := rfl

theorem le_maxReviewId {rs : List ReviewData} {rv : ReviewData} (h : rv ∈ rs) :
    rv.id ≤ maxReviewId rs := by
  induction rs with
  | nil => simp at h
  | cons d rest ih =>
    rcases List.mem_cons.mp h with h | h
    · rw [h, maxReviewId_cons]
      exact le_max_left _ _
    · rw [maxReviewId_cons]
      exact le_trans (ih h) (le_max_right _ _)

theorem pollCommentsForIssue_char (trigger : String)
    (fetch : Nat → Option (List CommentData)) (hf : Nat → Nat → Bool)
    (acc : List (Nat × Nat) × List PollEvent) (issue : IssueData) :
    (pollCommentsForIssue trigger fetch hf acc issue).1 = acc.1 ∨
    ∃ cs, fetch issue.number = some cs ∧ cs ≠ [] ∧
      (pollCommentsForIssue trigger fetch hf acc issue).1 =
        mapSet acc.1 issue.number (maxCommentId cs) := by
  by_cases h1 : issue.isPR = true
  · refine Or.inl ?_
    simp only [pollCommentsForIssue, h1, if_true]
  · by_cases h2 : isBotUser issue.userLogin = true
    · refine Or.inl ?_
      simp only [pollCommentsForIssue, h1, h2, Bool.false_eq_true, if_false, if_true]
    · cases hres : fetch issue.number with
      | none =>
        refine Or.inl ?_
        simp only [pollCommentsForIssue, h1, h2, Bool.false_eq_true, if_false, hres]
      | some cs =>
        by_cases h3 : (processComments trigger issue.number
            ((mapGet acc.1 issue.number).getD 0) (hf issue.number) cs).1 = true
        · refine Or.inl ?_
          simp only [pollCommentsForIssue, h1, h2, Bool.false_eq_true, if_false, hres, h3,
            if_true]
        · by_cases h4 : cs.isEmpty = true
          · refine Or.inl ?_
            simp only [pollCommentsForIssue, h1, h2, Bool.false_eq_true, if_false, hres, h3,
              h4, if_true]
          · refine Or.inr ⟨cs, rfl, by simpa using h4, ?_⟩
            simp only [pollCommentsForIssue, h1, h2, Bool.false_eq_true, if_false, hres, h3,
              h4]

theorem pollCommentsForIssue_stuck (trigger : String)
    (fetch : Nat → Option (List CommentData)) (hf : Nat → Nat → Bool)
    (acc : List (Nat × Nat) × List PollEvent) (issue : IssueData)
    (m₀ : List (Nat × Nat)) (cs : List CommentData)
    (hres : fetch issue.number = some cs)
    (hthrow : (processComments trigger issue.number ((mapGet m₀ issue.number).getD 0)
      (hf issue.number) cs).1 = true)
    (ha : mapGet acc.1 issue.number = mapGet m₀ issue.number) :
    (pollCommentsForIssue trigger fetch hf acc issue).1 = acc.1 := by
  by_cases h1 : issue.isPR = true
  · simp only [pollCommentsForIssue, h1, if_true]
  · by_cases h2 : isBotUser issue.userLogin = true
    · simp only [pollCommentsForIssue, h1, h2, Bool.false_eq_true, if_false, if_true]
    · simp only [pollCommentsForIssue, h1, h2, Bool.false_eq_true, if_false, hres, ha,
        hthrow, if_true]

theorem commentsFold_char (trigger : String) (fetch : Nat → Option (List CommentData))
    (hf : Nat → Nat → Bool) (issues : List IssueData) (m₀ : List (Nat × Nat)) :
    ∀ acc : List (Nat × Nat) × List PollEvent,
      (∀ n, mapGet acc.1 n = mapGet m₀ n ∨ ∃ cs, fetch n = some cs ∧ cs ≠ [] ∧
        mapGet acc.1 n = some (maxCommentId cs)) →
      ∀ n, mapGet (issues.foldl (pollCommentsForIssue trigger fetch hf) acc).1 n =
          mapGet m₀ n ∨
        ∃ cs, fetch n = some cs ∧ cs ≠ [] ∧
          mapGet (issues.foldl (pollCommentsForIssue trigger fetch hf) acc).1 n =
            some (maxCommentId cs) := by
  induction issues with
  | nil => intro acc h n; exact h n
  | cons issue rest ih =>
    intro acc h n
    refine ih (pollCommentsForIssue trigger fetch hf acc issue) ?_ n
    intro n'
    rcases pollCommentsForIssue_char trigger fetch hf acc issue with hc | ⟨cs, hcs, hne, hc⟩
    · rw [hc]
      exact h n'
    · by_cases hn' : issue.number = n'
      · subst hn'
        rw [hc]
        exact Or.inr ⟨cs, hcs, hne, mapGet_mapSet_self _ _ _⟩
      · rw [hc, mapGet_mapSet_ne _ _ _ _ hn']
        exact h n'

theorem commentsFold_stuck (trigger : String) (fetch : Nat → Option (List CommentData))
    (hf : Nat → Nat → Bool) (issues : List IssueData) (m₀ : List (Nat × Nat)) (n : Nat)
    (cs : List CommentData) (hres : fetch n = some cs)
    (hthrow : (processComments trigger n ((mapGet m₀ n).getD 0) (hf n) cs).1 = true) :
    ∀ acc : List (Nat × Nat) × List PollEvent,
      mapGet acc.1 n = mapGet m₀ n →
      mapGet (issues.foldl (pollCommentsForIssue trigger fetch hf) acc).1 n =
        mapGet m₀ n := by
  induction issues with
  | nil => intro acc h; exact h
  | cons issue rest ih =>
    intro acc h
    refine ih (pollCommentsForIssue trigger fetch hf acc issue) ?_
    by_cases hn : issue.number = n
    · subst hn
      rw [pollCommentsForIssue_stuck trigger fetch hf acc issue m₀ cs hres hthrow h]
      exact h
    · rcases pollCommentsForIssue_char trigger fetch hf acc issue with hc | ⟨cs', _, _, hc⟩
      · rw [hc]
        exact h
      · rw [hc, mapGet_mapSet_ne _ _ _ _ hn]
        exact h

theorem commentsFold_none (trigger : String) (fetch : Nat → Option (List CommentData))
    (hf : Nat → Nat → Bool) (issues : List IssueData) (n : Nat)
    (hres : fetch n = none) :
    ∀ acc : List (Nat × Nat) × List PollEvent,
      mapGet (issues.foldl (pollCommentsForIssue trigger fetch hf) acc).1 n =
        mapGet acc.1 n := by
  induction issues with
  | nil => intro acc; rfl
  | cons issue rest ih =>
    intro acc
    rw [List.foldl_cons, ih]
    rcases pollCommentsForIssue_char trigger fetch hf acc issue with hc | ⟨cs, hcs, _, hc⟩
    · rw [hc]
    · by_cases hn : issue.number = n
      · rw [hn] at hcs
        rw [hcs] at hres
        exact absurd hres (by simp)
      · rw [hc, mapGet_mapSet_ne _ _ _ _ hn]

theorem pollIssueComments_char (rk trig : String) (st : PollState)
    (res : Option (List IssueData)) (fetch : Nat → Option (List CommentData))
    (hf : Nat → Nat → Bool) :
    ((pollIssueComments rk trig st res fetch hf).1.lastIssueCheck = st.lastIssueCheck ∧
     (pollIssueComments rk trig st res fetch hf).1.knownPRs = st.knownPRs ∧
     (pollIssueComments rk trig st res fetch hf).1.knownReviews = st.knownReviews) ∧
    ((pollIssueComments rk trig st res fetch hf).1.lastCommentCheck = st.lastCommentCheck ∨
     ∃ issues, res = some issues ∧
       (pollIssueComments rk trig st res fetch hf).1.lastCommentCheck =
         mapSet st.lastCommentCheck rk
           (issues.foldl (pollCommentsForIssue trig fetch hf)
             ((mapGet st.lastCommentCheck rk).getD [], [])).1) := by
  cases res with
  | none => exact ⟨⟨rfl, rfl, rfl⟩, Or.inl rfl⟩
  | some issues => exact ⟨⟨rfl, rfl, rfl⟩, Or.inr ⟨issues, rfl, rfl⟩⟩

theorem ensureCommentEntry_char (st : PollState) (rk : String) :
    ((ensureCommentEntry st rk).lastIssueCheck = st.lastIssueCheck ∧
     (ensureCommentEntry st rk).knownPRs = st.knownPRs ∧
     (ensureCommentEntry st rk).knownReviews = st.knownReviews) ∧
    ((ensureCommentEntry st rk).lastCommentCheck = st.lastCommentCheck ∨
     (mapGet st.lastCommentCheck rk = none ∧
      (ensureCommentEntry st rk).lastCommentCheck = mapSet st.lastCommentCheck rk [])) := by
  unfold ensureCommentEntry
  cases hg : mapGet st.lastCommentCheck rk with
  | some m => exact ⟨⟨rfl, rfl, rfl⟩, Or.inl rfl⟩
  | none => exact ⟨⟨rfl, rfl, rfl⟩, Or.inr ⟨rfl, rfl⟩⟩

theorem pollNewIssues_char (rk trig : String) (st : PollState)
    (res : Option (List IssueData)) (hf : Nat → Bool) (now : Nat) :
    ((pollNewIssues rk trig st res hf now).1.knownPRs = st.knownPRs ∧
     (pollNewIssues rk trig st res hf now).1.knownReviews = st.knownReviews) ∧
    ((pollNewIssues rk trig st res hf now).1.lastIssueCheck = st.lastIssueCheck ∨
     (pollNewIssues rk trig st res hf now).1.lastIssueCheck =
       mapSet st.lastIssueCheck rk now) ∧
    ((pollNewIssues rk trig st res hf now).1.lastCommentCheck = st.lastCommentCheck ∨
     (mapGet st.lastCommentCheck rk = none ∧
      (pollNewIssues rk trig st res hf now).1.lastCommentCheck =
        mapSet st.lastCommentCheck rk [])) := by
  cases res with
  | none => exact ⟨⟨rfl, rfl⟩, Or.inl rfl, Or.inl rfl⟩
  | some issues =>
    have hens := ensureCommentEntry_char st rk
    by_cases h2 : (processIssues trig hf issues).2.2 = true
    · by_cases h1 : (processIssues trig hf issues).1 = true
      · refine ⟨⟨?_, ?_⟩, Or.inl ?_, ?_⟩
        · simp only [pollNewIssues, h1, h2, if_true]
          exact hens.1.2.1
        · simp only [pollNewIssues, h1, h2, if_true]
          exact hens.1.2.2
        · simp only [pollNewIssues, h1, h2, if_true]
          exact hens.1.1
        · simp only [pollNewIssues, h1, h2, if_true]
          exact hens.2
      · refine ⟨⟨?_, ?_⟩, Or.inr ?_, ?_⟩
        · simp only [pollNewIssues, h1, h2, Bool.false_eq_true, if_false, if_true]
          exact hens.1.2.1
        · simp only [pollNewIssues, h1, h2, Bool.false_eq_true, if_false, if_true]
          exact hens.1.2.2
        · simp only [pollNewIssues, h1, h2, Bool.false_eq_true, if_false, if_true]
          rw [hens.1.1]
        · simp only [pollNewIssues, h1, h2, Bool.false_eq_true, if_false, if_true]
          exact hens.2
    · by_cases h1 : (processIssues trig hf issues).1 = true
      · refine ⟨⟨?_, ?_⟩, Or.inl ?_, Or.inl ?_⟩ <;>
          simp only [pollNewIssues, h1, h2, Bool.false_eq_true, if_false, if_true]
      · refine ⟨⟨?_, ?_⟩, Or.inr ?_, Or.inl ?_⟩ <;>
          simp only [pollNewIssues, h1, h2, Bool.false_eq_true, if_false, if_true]

theorem mem_setAdd_of_mem {s : List String} {k k' : String} (h : k ∈ s) :
    k ∈ setAdd s k' := by
  unfold setAdd
  by_cases hk : k' ∈ s
  · simpa [hk] using h
  · simp only [hk, if_false]
    exact List.mem_append_left _ h

theorem pollPRStep_other_fields (repoKey : String) (rf : Nat → Option (List ReviewData))
    (rhf : Nat → Nat → Bool) (acc : PollState × List PollEvent) (q : PRData) :
    (pollPRStep repoKey rf rhf acc q).1.lastIssueCheck = acc.1.lastIssueCheck ∧
    (pollPRStep repoKey rf rhf acc q).1.lastCommentCheck = acc.1.lastCommentCheck := by
  by_cases hb : strStartsWith q.headRef "ai-agent-issue-" = true
  · have hr := pollPRReviews_state_char repoKey
      { lastIssueCheck := acc.1.lastIssueCheck, lastCommentCheck := acc.1.lastCommentCheck,
        knownPRs := setAdd acc.1.knownPRs (prKeyOf repoKey q.number),
        knownReviews := acc.1.knownReviews } q (rf q.number) (rhf q.number)
    have hfields : (pollPRReviews repoKey
        { lastIssueCheck := acc.1.lastIssueCheck, lastCommentCheck := acc.1.lastCommentCheck,
          knownPRs := setAdd acc.1.knownPRs (prKeyOf repoKey q.number),
          knownReviews := acc.1.knownReviews } q
        (rf q.number) (rhf q.number)).1.lastIssueCheck = acc.1.lastIssueCheck ∧
        (pollPRReviews repoKey
        { lastIssueCheck := acc.1.lastIssueCheck, lastCommentCheck := acc.1.lastCommentCheck,
          knownPRs := setAdd acc.1.knownPRs (prKeyOf repoKey q.number),
          knownReviews := acc.1.knownReviews } q
        (rf q.number) (rhf q.number)).1.lastCommentCheck = acc.1.lastCommentCheck := by
      rcases hr with hc | ⟨rvs, _, _, hc⟩ <;> rw [hc] <;> exact ⟨rfl, rfl⟩
    by_cases hcl : q.state = "closed"
    · simp only [pollPRStep, hb, Bool.not_true, Bool.false_eq_true, if_false, hcl, if_true]
      exact hfields
    · simp only [pollPRStep, hb, Bool.not_true, Bool.false_eq_true, if_false, hcl]
      exact hfields
  · simp only [pollPRStep, hb]
    exact ⟨rfl, rfl⟩

theorem prFold_other_fields (repoKey : String) (rf : Nat → Option (List ReviewData))
    (rhf : Nat → Nat → Bool) (prs : List PRData) :
    ∀ acc : PollState × List PollEvent,
      (prs.foldl (pollPRStep repoKey rf rhf) acc).1.lastIssueCheck =
        acc.1.lastIssueCheck ∧
      (prs.foldl (pollPRStep repoKey rf rhf) acc).1.lastCommentCheck =
        acc.1.lastCommentCheck := by
  induction prs with
  | nil => intro acc; exact ⟨rfl, rfl⟩
  | cons q rest ih =>
    intro acc
    have hx := pollPRStep_other_fields repoKey rf rhf acc q
    have hr := ih (pollPRStep repoKey rf rhf acc q)
    exact ⟨hr.1.trans hx.1, hr.2.trans hx.2⟩

theorem pollOurPRs_other_fields (repoKey : String) (st : PollState)
    (res : Option (List PRData)) (rf : Nat → Option (List ReviewData))
    (rhf : Nat → Nat → Bool) :
    (pollOurPRs repoKey st res rf rhf).1.lastIssueCheck = st.lastIssueCheck ∧
    (pollOurPRs repoKey st res rf rhf).1.lastCommentCheck = st.lastCommentCheck := by
  cases res with
  | none => exact ⟨rfl, rfl⟩
  | some prs => exact prFold_other_fields repoKey rf rhf prs (st, [])

theorem prFold_revChar (repoKey : String) (rf : Nat → Option (List ReviewData))
    (rhf : Nat → Nat → Bool) (prs : List PRData) (rev₀ : List (String × Nat)) :
    ∀ acc : PollState × List PollEvent,
      acc.1.knownPRs.Nodup →
      (acc.1.knownReviews.map Prod.fst).Nodup →
      (∀ k, mapGet acc.1.knownReviews k = mapGet rev₀ k ∨
        mapGet acc.1.knownReviews k = none ∨
        ∃ n rvs, k = prKeyOf repoKey n ∧ rf n = some rvs ∧ rvs ≠ [] ∧
          mapGet acc.1.knownReviews k = some (maxReviewId rvs)) →
      ∀ k, mapGet (prs.foldl (pollPRStep repoKey rf rhf) acc).1.knownReviews k =
          mapGet rev₀ k ∨
        mapGet (prs.foldl (pollPRStep repoKey rf rhf) acc).1.knownReviews k = none ∨
        ∃ n rvs, k = prKeyOf repoKey n ∧ rf n = some rvs ∧ rvs ≠ [] ∧
          mapGet (prs.foldl (pollPRStep repoKey rf rhf) acc).1.knownReviews k =
            some (maxReviewId rvs) := by
  induction prs with
  | nil => intro acc _ _ h k; exact h k
  | cons q rest ih =>
    intro acc h3 h4 h k
    have hwf := pollPRStep_wf repoKey rf rhf acc q h3 h4
    refine ih (pollPRStep repoKey rf rhf acc q) hwf.1 hwf.2 ?_ k
    intro k'
    by_cases hb : strStartsWith q.headRef "ai-agent-issue-" = true
    · have hr := pollPRReviews_state_char repoKey
        { lastIssueCheck := acc.1.lastIssueCheck, lastCommentCheck := acc.1.lastCommentCheck,
          knownPRs := setAdd acc.1.knownPRs (prKeyOf repoKey q.number),
          knownReviews := acc.1.knownReviews } q (rf q.number) (rhf q.number)
      have hrev : ∀ k'', mapGet (pollPRReviews repoKey
          { lastIssueCheck := acc.1.lastIssueCheck,
            lastCommentCheck := acc.1.lastCommentCheck,
            knownPRs := setAdd acc.1.knownPRs (prKeyOf repoKey q.number),
            knownReviews := acc.1.knownReviews } q
          (rf q.number) (rhf q.number)).1.knownReviews k'' = mapGet rev₀ k'' ∨
          mapGet (pollPRReviews repoKey
          { lastIssueCheck := acc.1.lastIssueCheck,
            lastCommentCheck := acc.1.lastCommentCheck,
            knownPRs := setAdd acc.1.knownPRs (prKeyOf repoKey q.number),
            knownReviews := acc.1.knownReviews } q
          (rf q.number) (rhf q.number)).1.knownReviews k'' = none ∨
          ∃ n rvs, k'' = prKeyOf repoKey n ∧ rf n = some rvs ∧ rvs ≠ [] ∧
            mapGet (pollPRReviews repoKey
          { lastIssueCheck := acc.1.lastIssueCheck,
            lastCommentCheck := acc.1.lastCommentCheck,
            knownPRs := setAdd acc.1.knownPRs (prKeyOf repoKey q.number),
            knownReviews := acc.1.knownReviews } q
          (rf q.number) (rhf q.number)).1.knownReviews k'' = some (maxReviewId rvs) := by
        intro k''
        rcases hr with hc | ⟨rvs, hrvs, hrne, hc⟩
        · rw [hc]
          exact h k''
        · by_cases hk'' : k'' = prKeyOf repoKey q.number
          · subst hk''
            rw [hc]
            exact Or.inr (Or.inr ⟨q.number, rvs, rfl, hrvs, hrne,
              mapGet_mapSet_self _ _ _⟩)
          · rw [hc, mapGet_mapSet_ne _ _ _ _ (fun he => hk'' he.symm)]
            exact h k''
      have hrevnd : ((pollPRReviews repoKey
          { lastIssueCheck := acc.1.lastIssueCheck,
            lastCommentCheck := acc.1.lastCommentCheck,
            knownPRs := setAdd acc.1.knownPRs (prKeyOf repoKey q.number),
            knownReviews := acc.1.knownReviews } q
          (rf q.number) (rhf q.number)).1.knownReviews.map Prod.fst).Nodup := by
        rcases hr with hc | ⟨rvs, _, _, hc⟩
        · rw [hc]
          exact h4
        · rw [hc]
          exact keys_mapSet_nodup h4
      by_cases hcl : q.state = "closed"
      · simp only [pollPRStep, hb, Bool.not_true, Bool.false_eq_true, if_false, hcl, if_true]
        by_cases hk' : k' = prKeyOf repoKey q.number
        · subst hk'
          exact Or.inr (Or.inl (mapGet_mapDelete_self hrevnd))
        · rw [mapGet_mapDelete_ne hk']
          exact hrev k'
      · simp only [pollPRStep, hb, Bool.not_true, Bool.false_eq_true, if_false, hcl]
        exact hrev k'
    · simp only [pollPRStep, hb]
      exact h k'

theorem pollPRStep_events_extend (repoKey : String) (rf : Nat → Option (List ReviewData))
    (rhf : Nat → Nat → Bool) (acc : PollState × List PollEvent) (q : PRData) :
    ∃ tail, (pollPRStep repoKey rf rhf acc q).2 = acc.2 ++ tail := by
  by_cases hb : strStartsWith q.headRef "ai-agent-issue-" = true
  · by_cases hcl : q.state = "closed"
    · refine ⟨(pollPRReviews repoKey
        { lastIssueCheck := acc.1.lastIssueCheck, lastCommentCheck := acc.1.lastCommentCheck,
          knownPRs := setAdd acc.1.knownPRs (prKeyOf repoKey q.number),
          knownReviews := acc.1.knownReviews } q
        (rf q.number) (rhf q.number)).2 ++ [PollEvent.prClosed q.number], ?_⟩
      simp only [pollPRStep, hb, Bool.not_true, Bool.false_eq_true, if_false, hcl, if_true]
      rw [List.append_assoc]
    · refine ⟨(pollPRReviews repoKey
        { lastIssueCheck := acc.1.lastIssueCheck, lastCommentCheck := acc.1.lastCommentCheck,
          knownPRs := setAdd acc.1.knownPRs (prKeyOf repoKey q.number),
          knownReviews := acc.1.knownReviews } q
        (rf q.number) (rhf q.number)).2, ?_⟩
      simp only [pollPRStep, hb, Bool.not_true, Bool.false_eq_true, if_false, hcl]
  · exact ⟨[], by simp [pollPRStep, hb]⟩

theorem prFold_prsMem (repoKey : String) (rf : Nat → Option (List ReviewData))
    (rhf : Nat → Nat → Bool) (prs : List PRData) :
    ∀ (acc : PollState × List PollEvent) (k : String),
      (k ∈ acc.1.knownPRs ∨ ∃ n, k = prKeyOf repoKey n ∧ PollEvent.prClosed n ∈ acc.2) →
      (k ∈ (prs.foldl (pollPRStep repoKey rf rhf) acc).1.knownPRs ∨
        ∃ n, k = prKeyOf repoKey n ∧
          PollEvent.prClosed n ∈ (prs.foldl (pollPRStep repoKey rf rhf) acc).2) := by
  induction prs with
  | nil => intro acc k h; exact h
  | cons q rest ih =>
    intro acc k h
    refine ih (pollPRStep repoKey rf rhf acc q) k ?_
    rcases h with h | ⟨n, hkn, hev⟩
    · by_cases hb : strStartsWith q.headRef "ai-agent-issue-" = true
      · have hr := pollPRReviews_state_char repoKey
          { lastIssueCheck := acc.1.lastIssueCheck,
            lastCommentCheck := acc.1.lastCommentCheck,
            knownPRs := setAdd acc.1.knownPRs (prKeyOf repoKey q.number),
            knownReviews := acc.1.knownReviews } q (rf q.number) (rhf q.number)
        have hprs : (pollPRReviews repoKey
            { lastIssueCheck := acc.1.lastIssueCheck,
              lastCommentCheck := acc.1.lastCommentCheck,
              knownPRs := setAdd acc.1.knownPRs (prKeyOf repoKey q.number),
              knownReviews := acc.1.knownReviews } q
            (rf q.number) (rhf q.number)).1.knownPRs =
            setAdd acc.1.knownPRs (prKeyOf repoKey q.number) := by
          rcases hr with hc | ⟨rvs, _, _, hc⟩ <;> rw [hc]
        by_cases hcl : q.state = "closed"
        · simp only [pollPRStep, hb, Bool.not_true, Bool.false_eq_true, if_false, hcl,
            if_true]
          by_cases hk : k = prKeyOf repoKey q.number
          · refine Or.inr ⟨q.number, hk, ?_⟩
            exact List.mem_append_right _ (List.mem_singleton.mpr rfl)
          · refine Or.inl ?_
            have : k ∈ setAdd acc.1.knownPRs (prKeyOf repoKey q.number) :=
              mem_setAdd_of_mem h
            rw [← hprs] at this
            exact (List.mem_erase_of_ne hk).mpr this
        · simp only [pollPRStep, hb, Bool.not_true, Bool.false_eq_true, if_false, hcl]
          refine Or.inl ?_
          rw [hprs]
          exact mem_setAdd_of_mem h
      · simp only [pollPRStep, hb]
        exact Or.inl h
    · obtain ⟨tail, htail⟩ := pollPRStep_events_extend repoKey rf rhf acc q
      refine Or.inr ⟨n, hkn, ?_⟩
      rw [htail]
      exact List.mem_append_left _ hev

theorem pollOurPRs_revChar (repoKey : String) (st : PollState)
    (res : Option (List PRData)) (rf : Nat → Option (List ReviewData))
    (rhf : Nat → Nat → Bool) (h3 : st.knownPRs.Nodup)
    (h4 : (st.knownReviews.map Prod.fst).Nodup) :
    ∀ k, mapGet (pollOurPRs repoKey st res rf rhf).1.knownReviews k =
        mapGet st.knownReviews k ∨
      mapGet (pollOurPRs repoKey st res rf rhf).1.knownReviews k = none ∨
      ∃ n rvs, k = prKeyOf repoKey n ∧ rf n = some rvs ∧ rvs ≠ [] ∧
        mapGet (pollOurPRs repoKey st res rf rhf).1.knownReviews k =
          some (maxReviewId rvs) := by
  cases res with
  | none => intro k; exact Or.inl rfl
  | some prs =>
    exact prFold_revChar repoKey rf rhf prs st.knownReviews (st, []) h3 h4
      (fun k => Or.inl rfl)

theorem pollOurPRs_prsMem (repoKey : String) (st : PollState)
    (res : Option (List PRData)) (rf : Nat → Option (List ReviewData))
    (rhf : Nat → Nat → Bool) :
    ∀ k ∈ st.knownPRs, k ∈ (pollOurPRs repoKey st res rf rhf).1.knownPRs ∨
      ∃ n, k = prKeyOf repoKey n ∧
        PollEvent.prClosed n ∈ (pollOurPRs repoKey st res rf rhf).2 := by
  cases res with
  | none => intro k hk; exact Or.inl hk
  | some prs =>
    intro k hk
    exact prFold_prsMem repoKey rf rhf prs (st, []) k (Or.inl hk)

/-- C3 (amended): over one poll cycle of a repository, (i) the per-repo issue
timestamp only moves to the cycle's captured `now` — so it never decreases once
the clock is monotone — and other repositories' timestamps are untouched;
(ii) a per-issue comment watermark never decreases provided every successfully
fetched comment batch only carries ids above the stored watermark for its issue
(which the `since` filter requests); the watermark is unchanged when the fetch
for that issue fails or when its scan throws before the batch is fully
processed, and other repositories' comment maps are untouched; (iii) a per-PR
review watermark never decreases under the corresponding freshness assumption,
and when every fetch for a PR key fails, that entry is either unchanged or
dropped; (iv) a known-PR entry present before the cycle survives it unless a
closure event for that PR was emitted in the same cycle. -/
theorem watermarks_monotone_amended :
    ∀ (cfg : RepoConfig) (inp : RepoCycleInput) (st : PollState),
      st.WF →
      (∀ t, mapGet st.lastIssueCheck (repoKeyOf cfg) = some t → t ≤ inp.now) →
      (∀ n cs c w, inp.commentFetch n = some cs → c ∈ cs →
        mapGet ((mapGet st.lastCommentCheck (repoKeyOf cfg)).getD []) n = some w →
        w < c.id) →
      (∀ n rvs rv w, inp.reviewsFetch n = some rvs → rv ∈ rvs →
        mapGet st.knownReviews (prKeyOf (repoKeyOf cfg) n) = some w → w < rv.id) →
      (∀ t t', mapGet st.lastIssueCheck (repoKeyOf cfg) = some t →
        mapGet (pollRepo cfg inp st).1.lastIssueCheck (repoKeyOf cfg) = some t' →
        t ≤ t') ∧
      (∀ k, k ≠ repoKeyOf cfg →
        mapGet (pollRepo cfg inp st).1.lastIssueCheck k = mapGet st.lastIssueCheck k) ∧
      (∀ n w w',
        mapGet ((mapGet st.lastCommentCheck (repoKeyOf cfg)).getD []) n = some w →
        mapGet ((mapGet (pollRepo cfg inp st).1.lastCommentCheck
          (repoKeyOf cfg)).getD []) n = some w' →
        w ≤ w') ∧
      (∀ k, k ≠ repoKeyOf cfg →
        mapGet (pollRepo cfg inp st).1.lastCommentCheck k =
          mapGet st.lastCommentCheck k) ∧
      (∀ n, inp.commentFetch n = none →
        mapGet ((mapGet (pollRepo cfg inp st).1.lastCommentCheck
          (repoKeyOf cfg)).getD []) n =
        mapGet ((mapGet st.lastCommentCheck (repoKeyOf cfg)).getD []) n) ∧
      (∀ n cs, inp.commentFetch n = some cs →
        (processComments cfg.triggerComment n
          ((mapGet ((mapGet st.lastCommentCheck (repoKeyOf cfg)).getD []) n).getD 0)
          (inp.commentHandlerFails n) cs).1 = true →
        mapGet ((mapGet (pollRepo cfg inp st).1.lastCommentCheck
          (repoKeyOf cfg)).getD []) n =
        mapGet ((mapGet st.lastCommentCheck (repoKeyOf cfg)).getD []) n) ∧
      (∀ k w w', mapGet st.knownReviews k = some w →
        mapGet (pollRepo cfg inp st).1.knownReviews k = some w' → w ≤ w') ∧
      (∀ k, (∀ n, k = prKeyOf (repoKeyOf cfg) n → inp.reviewsFetch n = none) →
        mapGet (pollRepo cfg inp st).1.knownReviews k = mapGet st.knownReviews k ∨
        mapGet (pollRepo cfg inp st).1.knownReviews k = none) ∧
      (∀ k ∈ st.knownPRs, k ∈ (pollRepo cfg inp st).1.knownPRs ∨
        ∃ n, k = prKeyOf (repoKeyOf cfg) n ∧
          PollEvent.prClosed n ∈ (pollRepo cfg inp st).2) := by
  intro cfg inp st hWF hclock hfreshC hfreshR
  set rk := repoKeyOf cfg with hrkdef
  set r1 := pollNewIssues rk cfg.triggerComment st inp.sinceIssuesResult
    inp.issueHandlerFails inp.now with hr1def
  set r2 := pollIssueComments rk cfg.triggerComment r1.1 inp.openIssuesResult
    inp.commentFetch inp.commentHandlerFails with hr2def
  set r3 := pollOurPRs rk r2.1 inp.prsResult inp.reviewsFetch inp.reviewHandlerFails
    with hr3def
  have hst : (pollRepo cfg inp st).1 = r3.1 := rfl
  have hev : (pollRepo cfg inp st).2 = r1.2 ++ r2.2 ++ r3.2 := rfl
  have hc1 := pollNewIssues_char rk cfg.triggerComment st inp.sinceIssuesResult
    inp.issueHandlerFails inp.now
  have hc2 := pollIssueComments_char rk cfg.triggerComment r1.1 inp.openIssuesResult
    inp.commentFetch inp.commentHandlerFails
  have hc3f := pollOurPRs_other_fields rk r2.1 inp.prsResult inp.reviewsFetch
    inp.reviewHandlerFails
  rw [← hr1def] at hc1
  rw [← hr2def] at hc2
  rw [← hr3def] at hc3f
  have hm0 : (mapGet r1.1.lastCommentCheck rk).getD [] =
      (mapGet st.lastCommentCheck rk).getD [] := by
    rcases hc1.2.2 with hA | ⟨hnone, hA⟩
    · rw [hA]
    · rw [hA, mapGet_mapSet_self, hnone]
      rfl
  have hkr2 : r2.1.knownReviews = st.knownReviews := hc2.1.2.2.trans hc1.1.2
  have hkp2 : r2.1.knownPRs = st.knownPRs := hc2.1.2.1.trans hc1.1.1
  refine ⟨?_, ?_, ?_, ?_, ?_, ?_, ?_, ?_, ?_⟩
  · intro t t' ht ht'
    rw [hst, hc3f.1, hc2.1.1] at ht'
    rcases hc1.2.1 with hA | hA
    · rw [hA, ht] at ht'
      exact le_of_eq (Option.some.inj ht')
    · rw [hA, mapGet_mapSet_self] at ht'
      rw [← Option.some.inj ht']
      exact hclock t ht
  · intro k hk
    rw [hst, hc3f.1, hc2.1.1]
    rcases hc1.2.1 with hA | hA
    · rw [hA]
    · rw [hA, mapGet_mapSet_ne _ _ _ _ (Ne.symm hk)]
  · intro n w w' hw hw'
    rw [hst, hc3f.2] at hw'
    rcases hc2.2 with hB | ⟨issues, _, hB⟩
    · rw [hB, hm0, hw] at hw'
      exact le_of_eq (Option.some.inj hw')
    · rw [hB, mapGet_mapSet_self, Option.getD_some] at hw'
      have hchar := commentsFold_char cfg.triggerComment inp.commentFetch
        inp.commentHandlerFails issues ((mapGet r1.1.lastCommentCheck rk).getD [])
        ((mapGet r1.1.lastCommentCheck rk).getD [], []) (fun _ => Or.inl rfl) n
      rcases hchar with hC | ⟨cs, hcs, hcne, hC⟩
      · rw [hC, hm0, hw] at hw'
        exact le_of_eq (Option.some.inj hw')
      · rw [hC] at hw'
        rw [← Option.some.inj hw']
        obtain ⟨c₀, hc₀⟩ := List.exists_mem_of_ne_nil cs hcne
        exact le_trans (le_of_lt (hfreshC n cs c₀ w hcs hc₀ hw)) (le_maxCommentId hc₀)
  · intro k hk
    rw [hst, hc3f.2]
    rcases hc2.2 with hB | ⟨issues, _, hB⟩
    · rw [hB]
      rcases hc1.2.2 with hA | ⟨_, hA⟩
      · rw [hA]
      · rw [hA, mapGet_mapSet_ne _ _ _ _ (Ne.symm hk)]
    · rw [hB, mapGet_mapSet_ne _ _ _ _ (Ne.symm hk)]
      rcases hc1.2.2 with hA | ⟨_, hA⟩
      · rw [hA]
      · rw [hA, mapGet_mapSet_ne _ _ _ _ (Ne.symm hk)]
  · intro n hnone
    rw [hst, hc3f.2]
    rcases hc2.2 with hB | ⟨issues, _, hB⟩
    · rw [hB, hm0]
    · rw [hB, mapGet_mapSet_self, Option.getD_some]
      have hfn := commentsFold_none cfg.triggerComment inp.commentFetch
        inp.commentHandlerFails issues n hnone
        ((mapGet r1.1.lastCommentCheck rk).getD [], [])
      exact hfn.trans (by rw [hm0])
  · intro n cs hcs hthrow
    rw [hst, hc3f.2]
    rcases hc2.2 with hB | ⟨issues, _, hB⟩
    · rw [hB, hm0]
    · rw [hB, mapGet_mapSet_self, Option.getD_some]
      rw [← hm0] at hthrow
      have hfs := commentsFold_stuck cfg.triggerComment inp.commentFetch
        inp.commentHandlerFails issues ((mapGet r1.1.lastCommentCheck rk).getD []) n cs
        hcs hthrow ((mapGet r1.1.lastCommentCheck rk).getD [], []) rfl
      exact hfs.trans (by rw [hm0])
  · intro k w w' hw hw'
    have hinv := pollOurPRs_revChar rk r2.1 inp.prsResult inp.reviewsFetch
      inp.reviewHandlerFails (by rw [hkp2]; exact hWF.2.2.1)
      (by rw [hkr2]; exact hWF.2.2.2) k
    rw [← hr3def, hkr2] at hinv
    rw [hst] at hw'
    rcases hinv with hD | hD | ⟨n, rvs, hkn, hrvs, hrne, hD⟩
    · rw [hD, hw] at hw'
      exact le_of_eq (Option.some.inj hw')
    · rw [hD] at hw'
      exact absurd hw' (by simp)
    · rw [hD] at hw'
      rw [← Option.some.inj hw']
      obtain ⟨rv₀, hrv₀⟩ := List.exists_mem_of_ne_nil rvs hrne
      rw [hkn] at hw
      exact le_trans (le_of_lt (hfreshR n rvs rv₀ w hrvs hrv₀ hw)) (le_maxReviewId hrv₀)
  · intro k hnone
    have hinv := pollOurPRs_revChar rk r2.1 inp.prsResult inp.reviewsFetch
      inp.reviewHandlerFails (by rw [hkp2]; exact hWF.2.2.1)
      (by rw [hkr2]; exact hWF.2.2.2) k
    rw [← hr3def, hkr2] at hinv
    rw [hst]
    rcases hinv with hD | hD | ⟨n, rvs, hkn, hrvs, _, _⟩
    · exact Or.inl hD
    · exact Or.inr hD
    · rw [hnone n hkn] at hrvs
      exact absurd hrvs (by simp)
  · intro k hk
    have hmem := pollOurPRs_prsMem rk r2.1 inp.prsResult inp.reviewsFetch
      inp.reviewHandlerFails k (by rw [hkp2]; exact hk)
    rw [← hr3def] at hmem
    rw [hst, hev]
    rcases hmem with hmem | ⟨n, hkn, hevmem⟩
    · exact Or.inl hmem
    · exact Or.inr ⟨n, hkn, List.mem_append_right _ hevmem⟩

/-- C3 counterexample to the claim as stated: `pollIssueComments` sets an
issue's watermark to the maximum id of the whole fetched batch, so a successful
scan whose batch holds only a comment with id 50 rewrites a stored watermark of
100 down to 50 — under arbitrary API responses the stored value DOES decrease.
(The batch comment is skipped as already seen, yet the watermark is still
overwritten with the batch maximum.) -/
theorem commentWatermark_decreases_counterexample :
    mapGet ((mapGet (pollIssueComments "o/r" "@ai-agent"
        { lastIssueCheck := [], lastCommentCheck := [("o/r", [(7, 100)])],
          knownPRs := [], knownReviews := [] }
        (some [{ number := 7, isPR := false, userLogin := some "alice", body := "x" }])
        (fun _ => some [{ id := 50, userLogin := some "alice", body := "y" }])
        (fun _ _ => false)).1.lastCommentCheck "o/r").getD []) 7 = some 50 ∧
    mapGet ((mapGet ([("o/r", [(7, 100)])] : List (String × List (Nat × Nat)))
        "o/r").getD []) 7 = some 100 ∧
    50 < 100 := by
  refine ⟨?_, ?_, ?_⟩ <;> decide

/-- The amended watermark theorem at the concrete cycle `c3Cfg`/`c3Inp`/`c3St`:
issue 9, whose comment fetch failed, keeps its stored watermark, and issue 7's
watermark moves from 100 up to 103. -/
theorem watermarks_monotone_amended_witness :
    (mapGet ((mapGet (pollRepo c3Cfg c3Inp c3St).1.lastCommentCheck
        (repoKeyOf c3Cfg)).getD []) 9 =
      mapGet ((mapGet c3St.lastCommentCheck (repoKeyOf c3Cfg)).getD []) 9) ∧
    (100 : Nat) ≤ 103 := by
  have A := watermarks_monotone_amended c3Cfg c3Inp c3St
    (by refine ⟨?_, ?_, ?_, ?_⟩ <;> decide)
    (by intro t ht; simp [c3St, mapGet] at ht)
    (by
      intro n cs c w hcs hc hw
      simp only [c3Inp] at hcs
      by_cases hn : n = 7
      · subst hn
        rw [if_pos rfl] at hcs
        injection hcs with hcs
        subst hcs
        have h100 : mapGet ((mapGet c3St.lastCommentCheck (repoKeyOf c3Cfg)).getD [])
            7 = some 100 := by decide
        rw [h100] at hw
        injection hw with hw
        subst hw
        simp only [List.mem_cons, List.not_mem_nil, or_false] at hc
        rcases hc with hc | hc | hc <;> subst hc <;> decide
      · rw [if_neg hn] at hcs
        simp at hcs)
    (by intro n rvs rv w hrvs _ _; simp [c3Inp] at hrvs)
  exact ⟨A.2.2.2.2.1 9 (by decide), A.2.2.1 7 100 103 (by decide) (by decide)⟩

end Autogas
